import Mathlib

/-!
# Routing skill group resource: division-membership differ and CRUD steps

A shallow embedding of
`genesyscloud/routing_skill_group/resource_genesyscloud_routing_skill_group.go`.

Conventions of the embedding:

* a Go slice of strings is a `List String`; the `nil` slice and the empty slice are both `[]`
  (the source only ever inspects `len`);
* the `error` an SDK call returns is the `String` of its message;
* the remote system answers a call of the skill group proxy as a function of the calls issued
  before it, and every handler threads the list of the calls issued so far;
* a timeout is counted in attempts: the number of invocations that fit before the deadline;
* a function returning `(values..., diag.Diagnostics)` returns a tuple whose last component is an
  `Option Diagnostics` (`none` is Go's `nil` diagnostics);
* the unbounded `for pageNum := 1; ; pageNum++` loop takes a fuel argument and returns `none` when
  the fuel is used up before the loop ends.
-/

namespace RoutingSkillGroup

/-! ## Data model -/

/-- The part of an SDK `*platformclientv2.APIResponse` that the handlers look at. -/
structure APIResponse where
  StatusCode : Nat
  deriving DecidableEq, Repr

/-- An `error` value handed to the retry machinery, recorded as what made it. -/
inductive RetryCause where
  | errorString (msg : String)
  | BuildWithRetriesApiDiagnosticError (resourceName summary : String)
      (resp : Option APIResponse)
  deriving DecidableEq, Repr

/-- The SDK `retry.RetryError`. -/
structure RetryError where
  Err : RetryCause
  Retryable : Bool
  deriving DecidableEq, Repr

/-- The SDK `retry.RetryableError`. -/
def RetryableError (err : RetryCause) : RetryError := { Err := err, Retryable := true }

/-- The SDK `retry.NonRetryableError`. -/
def NonRetryableError (err : RetryCause) : RetryError := { Err := err, Retryable := false }

/-- A `diag.Diagnostics` value, recorded as what made it: a `util` builder and its arguments, the
terminal error of a retried operation, or a deadline that passed (with the last error the retried
operation reported, if any). -/
inductive Diagnostics where
  | BuildDiagnosticError (resourceName summary err : String)
  | BuildAPIDiagnosticError (resourceName summary : String) (resp : Option APIResponse)
  | FromErr (err : RetryCause)
  | DeadlineExceeded (last : Option RetryCause)
  deriving DecidableEq, Repr

/-- An entry of `resourceExporter.ResourceIDMetaMap`. -/
structure ResourceMeta where
  Name : String
  deriving DecidableEq, Repr

/-- The Go map `resourceExporter.ResourceIDMetaMap`, as an association list with distinct keys.
The order of the entries stands for the (unspecified) iteration order of the Go map. -/
abbrev ResourceIDMetaMap := List (String × ResourceMeta)

/-- The Go map assignment `resources[k] = v`. -/
def ResourceIDMetaMap.set (resources : ResourceIDMetaMap) (k : String) (v : ResourceMeta) :
    ResourceIDMetaMap :=
  resources.filter (fun e => e.1 != k) ++ [(k, v)]

/-- The keys of the map, in iteration order (`for key, _ := range m`). -/
def ResourceIDMetaMap.keys (resources : ResourceIDMetaMap) : List String :=
  resources.map Prod.fst

/-- An SDK `platformclientv2.Authdivision`, with the two fields the code dereferences. -/
structure Authdivision where
  Id : String
  Name : String
  deriving DecidableEq, Repr

/-- An SDK `platformclientv2.Authdivisionentitylisting`; `Entities` is a nillable pointer. -/
structure Authdivisionentitylisting where
  Entities : Option (List Authdivision)
  deriving DecidableEq, Repr

/-- The outcome of one SDK call: the value, or the response and the error. -/
inductive ApiResult (α : Type) where
  | ok (value : α) (resp : Option APIResponse)
  | fail (resp : Option APIResponse) (err : String)
  deriving Repr

/-- An SDK `platformclientv2.Skillgroup` as the read handler uses it. `Name` and the division
pointer are dereferenced by the source without a nil test; `SkillConditions` is the JSON text
that `json.Marshal` gives for the conditions. -/
structure Skillgroup where
  Name : String
  Description : Option String
  DivisionId : Option String
  SkillConditions : String
  deriving DecidableEq, Repr

/-- An SDK `platformclientv2.Skillgroupmemberdivisions`, the body of the member-division post. -/
structure Skillgroupmemberdivisions where
  RemoveDivisionIds : Option (List String)
  AddDivisionIds : Option (List String)
  deriving DecidableEq, Repr

/-- An SDK `platformclientv2.Skillgroupcondition`: one condition object, kept as its JSON
text. -/
structure Skillgroupcondition where
  json : String
  deriving DecidableEq, Repr

/-- An SDK `platformclientv2.Skillgroupwithmemberdivisions` as the create handler fills it;
`Division` is the ID of the `Writabledivision` and `none` for a nil pointer. -/
structure Skillgroupwithmemberdivisions where
  Name : String
  Description : String
  Division : Option String
  SkillConditions : Option (List Skillgroupcondition)
  deriving DecidableEq, Repr

/-- An SDK `platformclientv2.Skillgroup` as the update handler fills it; `Division` is the ID of
the `Writabledivision` and `none` for a nil pointer. -/
structure SkillgroupUpdate where
  Name : String
  Description : String
  Division : Option String
  SkillConditions : Option (List Skillgroupcondition)
  deriving DecidableEq, Repr

/-- A call of the skill group proxy that reaches the remote system. -/
inductive Call where
  | getRoutingSkillGroupsById (id : String)
  | deleteRoutingSkillGroup (id : String)
  | createRoutingSkillGroupsMemberDivision (id : String) (reqBody : Skillgroupmemberdivisions)
  | createRoutingSkillGroups (createRequest : Skillgroupwithmemberdivisions)
  | updateRoutingSkillGroups (id : String) (updateRequest : SkillgroupUpdate)
  | getRoutingSkillGroupsMemberDivison (id : String)
  deriving DecidableEq, Repr

/-- The skill group proxy: for each operation, the answer of the remote system given the calls
issued before this one. A create answers with the ID of the new group, an update with the name
of the group, a member-division read with the IDs of the divisions listed. -/
structure RoutingSkillGroupProxy where
  getRoutingSkillGroupsById : List Call → String → ApiResult Skillgroup
  deleteRoutingSkillGroup : List Call → String → Option APIResponse × Option String
  createRoutingSkillGroupsMemberDivision :
    List Call → String → Skillgroupmemberdivisions → Option APIResponse × Option String
  createRoutingSkillGroups : List Call → Skillgroupwithmemberdivisions → ApiResult String
  updateRoutingSkillGroups : List Call → String → SkillgroupUpdate → ApiResult String
  getRoutingSkillGroupsMemberDivison : List Call → String → ApiResult (List String)

/-- The `*platformclientv2.Configuration`: it stands for the remote organization that the APIs
built from it talk to. `GetAuthorizationDivisions pageSize pageNum` is the answer of the remote
list-divisions operation (one run asks for each page once). -/
structure Configuration where
  GetAuthorizationDivisions : Nat → Nat → ApiResult Authdivisionentitylisting
  routingSkillGroupProxy : RoutingSkillGroupProxy

/-- The function `getRoutingSkillGroupProxy`: the proxy kept for a configuration. -/
def getRoutingSkillGroupProxy (clientConfig : Configuration) : RoutingSkillGroupProxy :=
  clientConfig.routingSkillGroupProxy

/-- The `provider.ProviderMeta` passed around as `meta`. -/
structure ProviderMeta where
  ClientConfig : Configuration

/-! ## Enumeration of the divisions -/

/-- The body of `for _, division := range *divisions.Entities` in `getAllAuthDivisions`. -/
def addDivisions (resources : ResourceIDMetaMap) (entities : List Authdivision) :
    ResourceIDMetaMap :=
  entities.foldl (fun acc division => acc.set division.Id { Name := division.Name }) resources

/-- The loop of `getAllAuthDivisions`, from page `pageNum` on with `resources` collected so far. -/
def getAllAuthDivisionsLoop (clientConfig : Configuration) :
    Nat → Nat → ResourceIDMetaMap → Option (ResourceIDMetaMap × Option Diagnostics)
  | 0, _, _ => none
  | fuel + 1, pageNum, resources =>
    match clientConfig.GetAuthorizationDivisions 100 pageNum with
    | .fail resp getErr =>
      some ([], some (.BuildAPIDiagnosticError "genesyscloud_auth_division"
        ("Failed to get page of divisions error: " ++ getErr) resp))
    | .ok divisions _ =>
      match divisions.Entities with
      | none => some (resources, none)
      | some [] => some (resources, none)
      | some (division :: rest) =>
        getAllAuthDivisionsLoop clientConfig fuel (pageNum + 1)
          (addDivisions resources (division :: rest))

/-- The function `getAllAuthDivisions`. -/
def getAllAuthDivisions (fuel : Nat) (clientConfig : Configuration) :
    Option (ResourceIDMetaMap × Option Diagnostics) :=
  getAllAuthDivisionsLoop clientConfig fuel 1 []

/-- The function `getAllAuthDivisionIds`. -/
def getAllAuthDivisionIds (fuel : Nat) (m : ProviderMeta) :
    Option (List String × Option Diagnostics) :=
  match getAllAuthDivisions fuel m.ClientConfig with
  | none => none
  | some (_, some err) => some ([], some err)
  | some (divisionResourcesMap, none) => some (divisionResourcesMap.keys, none)

/-! ## The division-membership differ -/

/-- Modelled from the spec: `allMemberDivisionsSpecified` is called by the differ but its body
lives in another file of the package. Spec 4.3, step 1: "If `desired` contains the wildcard", the
wildcard being the value `"*"` (spec 3). -/
def allMemberDivisionsSpecified (schemaMemberDivisionIds : List String) : Bool :=
  decide ("*" ∈ schemaMemberDivisionIds)

/-- Modelled from the spec: `organizeMemberDivisionIdsForUpdate` is called by the differ but its
body lives in another file of the package. Spec 4.3, step 2: "On update, compute set difference:
add = desired − current; remove = current − desired." -/
def organizeMemberDivisionIdsForUpdate (schemaIds apiIds : List String) :
    List String × List String :=
  (schemaIds.filter (fun id => decide (id ∉ apiIds)),
   apiIds.filter (fun id => decide (id ∉ schemaIds)))

/-- The text of the validation error of the differ. -/
def wildcardErrorText : String :=
  "member_division_ids should not contain more than one item when the value of an item is \"*\""

/-- The function `createListsForSkillgroupsMembersDivisionsPost`. `resourceName` is the package
constant of that name, whose declaration lives in another file of the package. -/
def createListsForSkillgroupsMembersDivisionsPost (resourceName : String) (fuel : Nat)
    (schemaMemberDivisionIds apiMemberDivisionIds : List String) (create : Bool)
    (m : ProviderMeta) : Option (List String × List String × Option Diagnostics) :=
  if allMemberDivisionsSpecified schemaMemberDivisionIds then
    if schemaMemberDivisionIds.length > 1 then
      some ([], [], some (.BuildDiagnosticError resourceName wildcardErrorText wildcardErrorText))
    else
      match getAllAuthDivisionIds fuel m with
      | none => none
      | some (toAdd, err) => some (toAdd, [], err)
  else if schemaMemberDivisionIds.length > 0 then
    if create then
      some (schemaMemberDivisionIds, [], none)
    else
      let (toAdd, toRemove) :=
        organizeMemberDivisionIdsForUpdate schemaMemberDivisionIds apiMemberDivisionIds
      some (toAdd, toRemove, none)
  else
    -- Empty array - remove all
    let toRemove := [] ++ apiMemberDivisionIds
    some ([], toRemove, none)

/-! ## Resource data and the retry wrappers -/

/-- The `*schema.ResourceData` of a skill group: its ID, the schema fields the handlers read and
write, and whether the resource is being created in this run. `member_division_ids` is the
outcome of `d.Get("member_division_ids").([]interface{})`, `none` for Go's `nil`. -/
structure ResourceData where
  Id : String
  name : String
  description : String
  division_id : String
  skill_conditions : String
  member_division_ids : Option (List String)
  IsNewResource : Bool
  deriving DecidableEq, Repr

/-- The state a handler runs in: the resource data and the calls issued so far, oldest first. -/
structure Run where
  d : ResourceData
  calls : List Call
  deriving DecidableEq, Repr

/-- The declarations of the package that live in other files and about which the spec is silent,
taken as given: the constant `resourceName`, the helper `removeSkillGroupDivisionID` and the
consistency checker (`NewConsistencyCheck d` is the `CheckState` method of the checker built
from the resource data `d`). -/
structure Package where
  resourceName : String
  removeSkillGroupDivisionID : ResourceData → List String → List String × Option Diagnostics
  NewConsistencyCheck : ResourceData → ResourceData → Option RetryError

/-- Modelled from the spec: `util.IsStatus404` is called by the handlers but its body lives in
another package of the repository. Spec 4.4: "poll Read until 404", "on 404, treat as
retryable": the response is there and its status code is 404. -/
def IsStatus404 (resp : Option APIResponse) : Bool :=
  match resp with
  | some r => r.StatusCode == 404
  | none => false

/-- Whether a retry error was made from a response with status 404. -/
def RetryError.is404 (e : RetryError) : Bool :=
  match e.Err with
  | .BuildWithRetriesApiDiagnosticError _ _ resp => IsStatus404 resp
  | .errorString _ => false

/-- Modelled from the spec: `util.WithRetries` is called by the delete handler but its body lives
in another package of the repository. Spec 4.1: "invoke the operation repeatedly until it returns
success, a designated non-retryable failure, or the timeout elapses"; on timeout the wrapper
reports a failure of its own, which carries the last error of the operation (spec 4.4, Delete:
"timeout (reports still-exists error)"). `attempts` is the number of invocations that fit before
the deadline, `last` the error of the previous invocation. -/
def WithRetries (method : Run → Option RetryError × Run) :
    Nat → Option RetryCause → Run → Option Diagnostics × Run
  | 0, last, s => (some (.DeadlineExceeded last), s)
  | attempts + 1, _, s =>
    match method s with
    | (none, s') => (none, s')
    | (some e, s') =>
      if e.Retryable then WithRetries method attempts (some e.Err) s'
      else (some (.FromErr e.Err), s')

/-- Modelled from the spec: `util.WithRetriesForRead` is called by the read handler but its body
lives in another package of the repository. Spec 4.4, Read: "on 404, treat as
retryable-not-yet-visible during the consistency-check window, but as resource gone once called
outside that window (triggers removal from tracked state)"; otherwise it retries as in 4.1. -/
def WithRetriesForRead (attempts : Nat) (method : Run → Option RetryError × Run) (s : Run) :
    Option Diagnostics × Run :=
  WithRetries (fun s =>
    match method s with
    | (none, s') => (none, s')
    | (some e, s') =>
      if e.is404 && !s'.d.IsNewResource then (none, { s' with d := { s'.d with Id := "" } })
      else (some e, s')) attempts none s

/-! ## The read and delete handlers -/

/-- The helper `resourcedata.SetNillableValue` of the util package, for a string field: the
value the field gets, which is the pointed value, or the zero value for a nil pointer. -/
def SetNillableValue (value : Option String) : String :=
  value.getD ""

/-- The function literal that `readSkillGroups` hands to `util.WithRetriesForRead`: one read
step. -/
def readSkillGroupsStep (pkg : Package) (proxy : RoutingSkillGroupProxy)
    (CheckState : ResourceData → Option RetryError) (s : Run) : Option RetryError × Run :=
  let calls := s.calls ++ [.getRoutingSkillGroupsById s.d.Id]
  match proxy.getRoutingSkillGroupsById s.calls s.d.Id with
  | .fail resp err =>
    if IsStatus404 resp then
      (some (RetryableError (.BuildWithRetriesApiDiagnosticError pkg.resourceName
        ("Failed to read skill groups " ++ s.d.Id ++ " | error: " ++ err) resp)),
       { s with calls := calls })
    else
      (some (RetryableError (.BuildWithRetriesApiDiagnosticError pkg.resourceName
        ("Failed to read skill groups " ++ s.d.Id ++ " | error: " ++ err) resp)),
       { s with calls := calls })
  | .ok skillGroup _ =>
    let d := { s.d with name := skillGroup.Name }
    let d := { d with description := SetNillableValue skillGroup.Description }
    let d := { d with division_id := SetNillableValue skillGroup.DivisionId }
    let skillConditions := skillGroup.SkillConditions
    let d :=
      if skillConditions != "" then { d with skill_conditions := skillConditions }
      else { d with skill_conditions := "" }
    let d :=
      match d.member_division_ids with
      | some divIds => { d with member_division_ids := some divIds }
      | none => d
    (CheckState d, { d := d, calls := calls })

/-- The function `readSkillGroups`. -/
def readSkillGroups (pkg : Package) (attempts : Nat) (m : ProviderMeta) (s : Run) :
    Option Diagnostics × Run :=
  let proxy := getRoutingSkillGroupProxy m.ClientConfig
  let cc := pkg.NewConsistencyCheck s.d
  WithRetriesForRead attempts (readSkillGroupsStep pkg proxy cc) s

/-- The function literal that `deleteSkillGroups` hands to `util.WithRetries`: one poll. -/
def deleteSkillGroupsPoll (pkg : Package) (proxy : RoutingSkillGroupProxy) (s : Run) :
    Option RetryError × Run :=
  let calls := s.calls ++ [.getRoutingSkillGroupsById s.d.Id]
  match proxy.getRoutingSkillGroupsById s.calls s.d.Id with
  | .fail resp err =>
    if IsStatus404 resp then
      (none, { s with calls := calls })
    else
      (some (NonRetryableError (.BuildWithRetriesApiDiagnosticError pkg.resourceName
        ("Error deleting skill group " ++ s.d.Id ++ " | error: " ++ err) resp)),
       { s with calls := calls })
  | .ok _ resp =>
    (some (RetryableError (.BuildWithRetriesApiDiagnosticError pkg.resourceName
      ("Skill group " ++ s.d.Id ++ " still exists") resp)),
     { s with calls := calls })

/-- The function `deleteSkillGroups`; `attempts` polls fit in its 30 seconds. -/
def deleteSkillGroups (pkg : Package) (attempts : Nat) (m : ProviderMeta) (s : Run) :
    Option Diagnostics × Run :=
  let proxy := getRoutingSkillGroupProxy m.ClientConfig
  let calls := s.calls ++ [.deleteRoutingSkillGroup s.d.Id]
  match proxy.deleteRoutingSkillGroup s.calls s.d.Id with
  | (resp, some err) =>
    (some (.BuildAPIDiagnosticError pkg.resourceName
      ("Failed to delete skill group " ++ s.d.Id ++ " error: " ++ err) resp),
     { s with calls := calls })
  | (_, none) =>
    WithRetries (deleteSkillGroupsPoll pkg proxy) attempts none { s with calls := calls }

/-! ## Posting the member divisions -/

/-- The function `createRoutingSkillGroupsMemberDivisions`. `fuel` bounds the pages of the
division listing, `attempts` the tries of the read it ends with on the paths that post
nothing. -/
def createRoutingSkillGroupsMemberDivisions (pkg : Package) (fuel attempts : Nat)
    (m : ProviderMeta) (skillGroupDivisionIds : List String) (create : Bool) (s : Run) :
    Option (Option Diagnostics × Run) :=
  let proxy := getRoutingSkillGroupProxy m.ClientConfig
  match s.d.member_division_ids with
  | none => some (readSkillGroups pkg attempts m s)
  | some schemaDivisionIds =>
    match createListsForSkillgroupsMembersDivisionsPost pkg.resourceName fuel schemaDivisionIds
        skillGroupDivisionIds create m with
    | none => none
    | some (_, _, some diagErr) => some (some diagErr, s)
    | some (toAdd, toRemove, none) =>
      match pkg.removeSkillGroupDivisionID s.d toRemove with
      | (_, some diagErr) => some (some diagErr, s)
      | (toRemove, none) =>
        if toAdd.length < 1 && toRemove.length < 1 then
          some (readSkillGroups pkg attempts m s)
        else
          let reqBody : Skillgroupmemberdivisions :=
            { RemoveDivisionIds := if toRemove.length > 0 then some toRemove else none,
              AddDivisionIds := if toAdd.length > 0 then some toAdd else none }
          let calls := s.calls ++ [.createRoutingSkillGroupsMemberDivision s.d.Id reqBody]
          match proxy.createRoutingSkillGroupsMemberDivision s.calls s.d.Id reqBody with
          | (resp, some err) =>
            some (some (.BuildAPIDiagnosticError pkg.resourceName
              ("Failed to create/update skill group " ++ s.d.Id ++
                " member divisions error: " ++ err) resp),
              { s with calls := calls })
          | (_, none) => some (none, { s with calls := calls })

/-- The number of member-division posts among the calls. -/
def memberDivisionPosts (calls : List Call) : Nat :=
  calls.countP (fun c => c matches .createRoutingSkillGroupsMemberDivision _ _)

/-- The text `pattern` occurs in `text` (Go's `strings.Contains`). -/
def containsText (text pattern : String) : Prop :=
  pattern.data <:+: text.data

/-! ## The create and update handlers -/

/-- The function `readSkillGroupMemberDivisions`: the IDs of the member divisions, the
diagnostics and the state after the call. -/
def readSkillGroupMemberDivisions (pkg : Package) (m : ProviderMeta) (s : Run) :
    List String × Option Diagnostics × Run :=
  let proxy := getRoutingSkillGroupProxy m.ClientConfig
  let calls := s.calls ++ [.getRoutingSkillGroupsMemberDivison s.d.Id]
  match proxy.getRoutingSkillGroupsMemberDivison s.calls s.d.Id with
  | .fail resp err =>
    ([], some (.BuildAPIDiagnosticError pkg.resourceName
      ("Failed to  get member divisions for skill group " ++ s.d.Id ++ " error: " ++ err) resp),
     { s with calls := calls })
  | .ok divisions _ =>
    let skillGroupMemberDivisionIds := divisions.foldl (fun ids id => ids ++ [id]) []
    (skillGroupMemberDivisionIds, none, { s with calls := calls })

/-- The statements of `createSkillGroups` before its remote call: the request made from the
resource data, or the diagnostics for a `skill_conditions` text that does not parse.
`Unmarshal` is `json.Unmarshal` into a `*[]platformclientv2.Skillgroupcondition`, `addr` the
text that `%v` prints for the pointer `&createRequest.Name`. -/
def createRequestOf (pkg : Package)
    (Unmarshal : String → Except String (Option (List Skillgroupcondition))) (addr : String)
    (d : ResourceData) : Except Diagnostics Skillgroupwithmemberdivisions :=
  let name := d.name
  let description := d.description
  let divisionID := d.division_id
  let conditions := d.skill_conditions
  let createRequest : Skillgroupwithmemberdivisions :=
    { Name := name, Description := description, Division := none, SkillConditions := none }
  let createRequest :=
    if divisionID != "" then { createRequest with Division := some divisionID }
    else createRequest
  if conditions != "" then
    match Unmarshal conditions with
    | .error err =>
      .error (.BuildDiagnosticError pkg.resourceName
        ("Failed to unmarshal the JSON payload while creating/updating the skills group " ++
          addr) err)
    | .ok finalConditions => .ok { createRequest with SkillConditions := finalConditions }
  else .ok createRequest

/-- The function `createSkillGroups`. `fuel` bounds the pages of the division listing,
`attempts` the tries of a read. -/
def createSkillGroups (pkg : Package)
    (Unmarshal : String → Except String (Option (List Skillgroupcondition))) (addr : String)
    (fuel attempts : Nat) (m : ProviderMeta) (s : Run) : Option (Option Diagnostics × Run) :=
  let proxy := getRoutingSkillGroupProxy m.ClientConfig
  match createRequestOf pkg Unmarshal addr s.d with
  | .error diagErr => some (some diagErr, s)
  | .ok createRequest =>
    let calls := s.calls ++ [.createRoutingSkillGroups createRequest]
    match proxy.createRoutingSkillGroups s.calls createRequest with
    | .fail response err =>
      some (some (.BuildAPIDiagnosticError pkg.resourceName
        ("Failed to create/update skill groups " ++ addr ++ " error: " ++ err) response),
        { s with calls := calls })
    | .ok groupId _ =>
      let s : Run := { d := { s.d with Id := groupId }, calls := calls }
      -- Update member division IDs
      match readSkillGroupMemberDivisions pkg m s with
      | (_, some diagErr, s) => some (some diagErr, s)
      | (apiSkillGroupMemberDivisionIds, none, s) =>
        match createRoutingSkillGroupsMemberDivisions pkg fuel attempts m
            apiSkillGroupMemberDivisionIds true s with
        | none => none
        | some (some diagErr, s) => some (some diagErr, s)
        | some (none, s) => some (readSkillGroups pkg attempts m s)

/-- The statements of `updateSkillGroups` before its remote call: the request made from the
resource data, or the diagnostics for a `skill_conditions` text that does not parse. -/
def updateRequestOf (pkg : Package)
    (Unmarshal : String → Except String (Option (List Skillgroupcondition))) (addr : String)
    (d : ResourceData) : Except Diagnostics SkillgroupUpdate :=
  let name := d.name
  let description := d.description
  let divisionID := d.division_id
  let conditions := d.skill_conditions
  let updateRequest : SkillgroupUpdate :=
    { Name := name, Description := description, Division := none, SkillConditions := none }
  let updateRequest :=
    if divisionID != "" then { updateRequest with Division := some divisionID }
    else updateRequest
  if conditions != "" then
    match Unmarshal conditions with
    | .error err =>
      .error (.BuildDiagnosticError pkg.resourceName
        ("Failed to unmarshal the JSON payload while creating/updating the skills group " ++
          addr) err)
    | .ok finalConditions => .ok { updateRequest with SkillConditions := finalConditions }
  else .ok updateRequest

/-- The function `updateSkillGroups`. -/
def updateSkillGroups (pkg : Package)
    (Unmarshal : String → Except String (Option (List Skillgroupcondition))) (addr : String)
    (fuel attempts : Nat) (m : ProviderMeta) (s : Run) : Option (Option Diagnostics × Run) :=
  let proxy := getRoutingSkillGroupProxy m.ClientConfig
  match updateRequestOf pkg Unmarshal addr s.d with
  | .error diagErr => some (some diagErr, s)
  | .ok updateRequest =>
    let calls := s.calls ++ [.updateRoutingSkillGroups s.d.Id updateRequest]
    match proxy.updateRoutingSkillGroups s.calls s.d.Id updateRequest with
    | .fail resp err =>
      some (some (.BuildAPIDiagnosticError pkg.resourceName
        ("Failed to create/update skill groups " ++ addr ++ " error: " ++ err) resp),
        { s with calls := calls })
    | .ok _ _ =>
      let s : Run := { s with calls := calls }
      -- Update member division IDs
      match readSkillGroupMemberDivisions pkg m s with
      | (_, some diagErr, s) => some (some diagErr, s)
      | (apiSkillGroupMemberDivisionIds, none, s) =>
        match createRoutingSkillGroupsMemberDivisions pkg fuel attempts m
            apiSkillGroupMemberDivisionIds false s with
        | none => none
        | some (some diagErr, s) => some (some diagErr, s)
        | some (none, s) => some (readSkillGroups pkg attempts m s)

/-- The number of remote create calls among the calls. -/
def createCalls (calls : List Call) : Nat :=
  calls.countP (fun c => c matches .createRoutingSkillGroups _)

/-- The calls that change the remote system or read its member divisions: create, update,
member-division read and member-division post. -/
def isWriteOrMemberCall (c : Call) : Bool :=
  match c with
  | .createRoutingSkillGroups _ => true
  | .updateRoutingSkillGroups _ _ => true
  | .getRoutingSkillGroupsMemberDivison _ => true
  | .createRoutingSkillGroupsMemberDivision _ _ => true
  | _ => false

/-- The request that `createSkillGroups` makes from `sampleData`. -/
def sampleCreateRequest : Skillgroupwithmemberdivisions :=
  { Name := "Series6", Description := "Licensed agents", Division := some "d1",
    SkillConditions := none }

/-- A `json.Unmarshal` that accepts the texts `null` and `[]` and rejects every other text. -/
def sampleUnmarshal : String → Except String (Option (List Skillgroupcondition)) := fun text =>
  if text = "null" then .ok none
  else if text = "[]" then .ok (some [])
  else .error "invalid character"

/-! ## Pages of the remote division listing -/

/-- The answer of the remote to the request for page `pageNum` (page size 100). -/
def divisionsPage (clientConfig : Configuration) (pageNum : Nat) :
    ApiResult Authdivisionentitylisting :=
  clientConfig.GetAuthorizationDivisions 100 pageNum

/-- The divisions a page answer carries (none for a failed request or an absent list). -/
def pageEntities : ApiResult Authdivisionentitylisting → List Authdivision
  | .ok divisions _ => divisions.Entities.getD []
  | .fail _ _ => []

/-- The page request succeeded and its entity list is present and not empty. -/
def isFullPage (r : ApiResult Authdivisionentitylisting) : Bool :=
  match r with
  | .ok divisions _ => (divisions.Entities.getD []).length > 0
  | .fail _ _ => false

/-- The page request succeeded and its entity list is absent or empty. -/
def isEmptyPage (r : ApiResult Authdivisionentitylisting) : Bool :=
  match r with
  | .ok divisions _ => (divisions.Entities.getD []).length == 0
  | .fail _ _ => false

/-- The map built from the divisions of the `count` pages `start, start + 1, ...`. -/
def collectPages (clientConfig : Configuration) :
    Nat → Nat → ResourceIDMetaMap → ResourceIDMetaMap
  | 0, _, resources => resources
  | count + 1, start, resources =>
    collectPages clientConfig count (start + 1)
      (addDivisions resources (pageEntities (divisionsPage clientConfig start)))

/-! ## Sample inputs -/

/-- A skill group as the remote system returns it. -/
def sampleSkillGroup : Skillgroup :=
  { Name := "Series6", Description := some "Licensed agents", DivisionId := some "d1",
    SkillConditions := "null" }

/-- A remote system whose skill group is there for the first two reads and gone (404) after,
and which accepts every delete and every member-division post. -/
def goneAfterTwoReads : RoutingSkillGroupProxy where
  getRoutingSkillGroupsById := fun calls _ =>
    if (calls.filter (fun c => c matches .getRoutingSkillGroupsById _)).length < 2 then
      .ok sampleSkillGroup (some { StatusCode := 200 })
    else .fail (some { StatusCode := 404 }) "not found"
  deleteRoutingSkillGroup := fun _ _ => (some { StatusCode := 204 }, none)
  createRoutingSkillGroupsMemberDivision := fun _ _ _ => (some { StatusCode := 200 }, none)
  createRoutingSkillGroups := fun _ _ => .ok "sg-1" (some { StatusCode := 200 })
  updateRoutingSkillGroups := fun _ _ req => .ok req.Name (some { StatusCode := 200 })
  getRoutingSkillGroupsMemberDivison := fun _ _ => .ok ["d1"] (some { StatusCode := 200 })

/-- A remote system whose skill group never goes away. -/
def neverGone : RoutingSkillGroupProxy where
  getRoutingSkillGroupsById := fun _ _ => .ok sampleSkillGroup (some { StatusCode := 200 })
  deleteRoutingSkillGroup := fun _ _ => (some { StatusCode := 204 }, none)
  createRoutingSkillGroupsMemberDivision := fun _ _ _ => (some { StatusCode := 200 }, none)
  createRoutingSkillGroups := fun _ _ => .ok "sg-1" (some { StatusCode := 200 })
  updateRoutingSkillGroups := fun _ _ req => .ok req.Name (some { StatusCode := 200 })
  getRoutingSkillGroupsMemberDivison := fun _ _ => .ok ["d1"] (some { StatusCode := 200 })

/-- A remote system that answers every call with a server error. -/
def serverError : RoutingSkillGroupProxy where
  getRoutingSkillGroupsById := fun _ _ => .fail (some { StatusCode := 500 }) "server error"
  deleteRoutingSkillGroup := fun _ _ => (some { StatusCode := 500 }, some "server error")
  createRoutingSkillGroupsMemberDivision := fun _ _ _ =>
    (some { StatusCode := 500 }, some "server error")
  createRoutingSkillGroups := fun _ _ => .fail (some { StatusCode := 500 }) "server error"
  updateRoutingSkillGroups := fun _ _ _ => .fail (some { StatusCode := 500 }) "server error"
  getRoutingSkillGroupsMemberDivison := fun _ _ =>
    .fail (some { StatusCode := 500 }) "server error"

/-- A remote organization with two divisions on page 1 and nothing after. -/
def sampleConfig : Configuration where
  GetAuthorizationDivisions := fun _ pageNum =>
    if pageNum = 1 then .ok { Entities := some [⟨"d1", "Home"⟩, ⟨"d2", "Sales"⟩] } none
    else .ok { Entities := some [] } none
  routingSkillGroupProxy := goneAfterTwoReads

/-- A provider meta over `sampleConfig`. -/
def sampleMeta : ProviderMeta := { ClientConfig := sampleConfig }

/-- A remote organization whose division listing fails on page 1 and whose skill group calls
fail with a server error. -/
def failingConfig : Configuration where
  GetAuthorizationDivisions := fun _ _ => .fail (some { StatusCode := 500 }) "boom"
  routingSkillGroupProxy := serverError

/-- A provider meta over `failingConfig`. -/
def failingMeta : ProviderMeta := { ClientConfig := failingConfig }

/-- A remote organization whose skill group never goes away. -/
def stuckMeta : ProviderMeta :=
  { ClientConfig := { sampleConfig with routingSkillGroupProxy := neverGone } }

/-- A package whose helper `removeSkillGroupDivisionID` drops the division of the skill group
from the list and whose consistency checker accepts every state. -/
def samplePackage : Package where
  resourceName := "genesyscloud_routing_skill_group"
  removeSkillGroupDivisionID := fun d list => (list.filter (fun id => id != d.division_id), none)
  NewConsistencyCheck := fun _ _ => none

/-- The resource data of a skill group in division `d1` that is to be visible in `d2`. -/
def sampleData : ResourceData :=
  { Id := "sg-1", name := "Series6", description := "Licensed agents", division_id := "d1",
    skill_conditions := "", member_division_ids := some ["d2"], IsNewResource := false }

/-- The resource data of `sampleData` before the skill group is created. -/
def sampleNewData : ResourceData :=
  { sampleData with Id := "", IsNewResource := true }

/-- The resource data of `sampleNewData` after the skill group was created and read back. -/
def sampleCreatedData : ResourceData :=
  { Id := "sg-1", name := "Series6", description := "Licensed agents", division_id := "d1",
    skill_conditions := "null", member_division_ids := some ["d2"], IsNewResource := true }

end RoutingSkillGroup

/-!
# Provider set-up

A shallow embedding of `genesyscloud/provider/provider.go`: the registry of the provider, the
authorization step and the retry wrapper `withRetries`.
-/

namespace Provider

open RoutingSkillGroup (RetryCause RetryError RetryableError NonRetryableError Diagnostics)

/-- Go's `strings.Contains`: the text `substr` occurs in `s`. -/
def stringsContains (s substr : String) : Bool :=
  decide (substr.data <:+: s.data)

/-! ## The registry -/

/-- The `platform.Platform` of the platform package, as what its method `GetProviderRegistry`
returns. -/
structure Platform where
  GetProviderRegistry : String
  deriving DecidableEq, Repr

/-- The function `getRegistry`; `platform` is a nillable pointer. -/
def getRegistry (platform : Option Platform) (version : String) : String :=
  let defaultRegistry := "registry.terraform.io"
  let devRegistry := "genesys.com"
  match platform with
  | none => defaultRegistry -- Default fallback
  | some platform =>
    -- Accounting for custom builds, we return this convention
    if version == "0.1.0" then devRegistry
    else
      let registry := platform.GetProviderRegistry
      let registry := if registry == "" then defaultRegistry else registry
      registry

/-! ## The authorization step -/

/-- The text by which the authorization step knows a rate-limit error. -/
def rateLimitText : String :=
  "Auth Error: 400 - invalid_request (rate limit exceeded;"

/-- The function literal that `InitClientConfig` hands to `withRetries`.
`AuthorizeClientCredentials` is the SDK method of the configuration: the error it returns for a
client ID and secret, `none` for Go's `nil`. -/
def initClientConfigStep (AuthorizeClientCredentials : String → String → Option String)
    (oauthclientID oauthclientSecret : String) : Option RetryError :=
  match AuthorizeClientCredentials oauthclientID oauthclientSecret with
  | some err =>
    if !stringsContains err rateLimitText then
      some (NonRetryableError
        (.errorString ("failed to authorize Genesys Cloud client credentials: " ++ err)))
    else
      some (RetryableError
        (.errorString ("exhausted retries on Genesys Cloud client credentials. " ++ err)))
  | none => none

/-- The function literal that `AuthorizeSdk` hands to `withRetries`; `Getenv` is `os.Getenv`. -/
def authorizeSdkStep (AuthorizeClientCredentials : String → String → Option String)
    (Getenv : String → String) : Option RetryError :=
  match AuthorizeClientCredentials (Getenv "GENESYSCLOUD_OAUTHCLIENT_ID")
      (Getenv "GENESYSCLOUD_OAUTHCLIENT_SECRET") with
  | some err =>
    if !stringsContains err rateLimitText then
      some (NonRetryableError
        (.errorString ("failed to authorize Genesys Cloud client credentials: " ++ err)))
    else
      some (RetryableError
        (.errorString ("exhausted retries on Genesys Cloud client credentials. " ++ err)))
  | none => none

/-! ## Sample inputs -/

/-- An authorization service that is rate limiting the client `busy` and rejects the secret
`wrong`. -/
def sampleAuthorize : String → String → Option String := fun oauthclientID oauthclientSecret =>
  if oauthclientID = "busy" then
    some "Auth Error: 400 - invalid_request (rate limit exceeded; retry in 3 seconds)"
  else if oauthclientSecret = "wrong" then some "Auth Error: 401 - invalid_client"
  else none

/-! ## The retry wrapper -/

/-- The `context.Context` a run of `retry.RetryContext` gets: the one of the caller of
`withRetries`, or `context.WithTimeout(context.Background(), timeout)`, made at a restart. -/
inductive Context where
  | caller
  | backgroundWithTimeout (timeout : Nat)
  deriving DecidableEq, Repr

/-- The arguments of one run of `retry.RetryContext`; `μ` is the type of the method. -/
structure RetryRun (μ : Type) where
  ctx : Context
  timeout : Nat
  method : μ
  deriving DecidableEq, Repr

/-- The library functions `withRetries` calls. `RetryContext runs run` is the error the SDK's
`retry.RetryContext` returns for the arguments `run` after the earlier runs `runs` (`none` for
Go's `nil`); `Sprintf` is `fmt.Sprintf("%v", err)` on diagnostics. -/
structure Library (μ : Type) where
  RetryContext : List (RetryRun μ) → RetryRun μ → Option String
  Sprintf : Diagnostics → String

/-- The SDK's `diag.FromErr`: no diagnostics for no error. -/
def FromErr (err : Option String) : Option Diagnostics :=
  err.map (fun msg => .FromErr (.errorString msg))

/-- The text by which `withRetries` knows a timeout of the retry machinery. -/
def timeoutText : String :=
  "timeout while waiting for state to become"

/-- The test of `withRetries` on the diagnostics of a run:
`err != nil && strings.Contains(fmt.Sprintf("%v", err), "timeout while ...")`. -/
def isTimeout {μ : Type} (lib : Library μ) (err : Option Diagnostics) : Bool :=
  match err with
  | some e => stringsContains (lib.Sprintf e) timeoutText
  | none => false

/-- The function `withRetries`. It calls itself without a bound, so it takes fuel: the number of
runs of `retry.RetryContext` it may make; `runs` are the runs made so far, oldest first. The
result is the diagnostics returned and the runs made. -/
def withRetries {μ : Type} (lib : Library μ) :
    Nat → Context → Nat → μ → List (RetryRun μ) →
      Option (Option Diagnostics × List (RetryRun μ))
  | 0, _, _, _, _ => none
  | fuel + 1, ctx, timeout, method, runs =>
    let run : RetryRun μ := { ctx := ctx, timeout := timeout, method := method }
    let err := FromErr (lib.RetryContext runs run)
    if isTimeout lib err then
      withRetries lib fuel (.backgroundWithTimeout timeout) timeout method (runs ++ [run])
    else
      some (err, runs ++ [run])

/-- The runs `withRetries` makes when it restarts `count - 1` times: one under the context of the
caller, the others under a fresh deadline. -/
def restartRuns {μ : Type} (ctx : Context) (timeout : Nat) (method : μ) : Nat → List (RetryRun μ)
  | 0 => []
  | count + 1 =>
    { ctx := ctx, timeout := timeout, method := method } ::
      List.replicate count
        { ctx := .backgroundWithTimeout timeout, timeout := timeout, method := method }

/-- The arguments of run number `i` (from 0) of a call of `withRetries`. -/
def nthRun {μ : Type} (ctx : Context) (timeout : Nat) (method : μ) (i : Nat) : RetryRun μ :=
  { ctx := if i = 0 then ctx else .backgroundWithTimeout timeout, timeout := timeout,
    method := method }

/-- A rendering of diagnostics made from an error: the text `%v` gives for a list of one
diagnostic of severity 0 with the message as its summary. -/
def sampleSprintf : Diagnostics → String
  | .FromErr (.errorString msg) => "[\x7b0 " ++ msg ++ "  []\x7d]"
  | _ => "[]"

/-- A library whose retry machinery times out in its first two runs and then reports that the
method failed. -/
def timesOutTwice : Library String where
  RetryContext := fun runs _ =>
    if runs.length < 2 then
      some "timeout while waiting for state to become 'success' (timeout: 1m0s)"
    else some "failed to authorize Genesys Cloud client credentials: denied"
  Sprintf := sampleSprintf

/-- A library whose retry machinery times out in every run. -/
def timesOutAlways : Library String where
  RetryContext := fun _ _ =>
    some "timeout while waiting for state to become 'success' (timeout: 1m0s)"
  Sprintf := sampleSprintf

/-! ## The provider and its maps -/

/-- A Go `map[string]*schema.Resource` as an association list with distinct keys; `ρ` is the
type of the `*schema.Resource` pointers. -/
abbrev ResourceMap (ρ : Type) := List (String × ρ)

/-- The Go map assignment `m[k] = v`. -/
def ResourceMap.set {ρ : Type} (m : ResourceMap ρ) (k : String) (v : ρ) : ResourceMap ρ :=
  m.filter (fun e => e.1 != k) ++ [(k, v)]

/-- The Go map read `m[k]`, `none` for a key that is not there. -/
def ResourceMap.get {ρ : Type} (m : ResourceMap ρ) (k : String) : Option ρ :=
  (m.find? (fun e => e.1 == k)).map Prod.snd

/-- A Go map value is a reference to a map object: here the number of the object in the heap. -/
abbrev MapRef := Nat

/-- The map objects of the heap: `size` of them are allocated, `read r` is the content of
object `r`. -/
structure Heap (ρ : Type) where
  size : Nat
  read : MapRef → ResourceMap ρ

/-- Go's `make(map[string]*schema.Resource)`: a new, empty map object. -/
def Heap.make {ρ : Type} (h : Heap ρ) : MapRef × Heap ρ :=
  (h.size, { size := h.size + 1, read := fun r => if r = h.size then [] else h.read r })

/-- The assignment `m[k] = v` on the map object `m`. -/
def Heap.assign {ρ : Type} (h : Heap ρ) (m : MapRef) (k : String) (v : ρ) : Heap ρ :=
  { size := h.size, read := fun r => if r = m then (h.read m).set k v else h.read r }

/-- The loop `for k, v := range src { dst[k] = v }`. -/
def copyEntries {ρ : Type} (h : Heap ρ) (src dst : MapRef) : Heap ρ :=
  (h.read src).foldl (fun h e => h.assign dst e.1 e.2) h

/-- The `schema.Provider` that `New` builds, without its schema literal: the two maps and the
version that `configure(version)` keeps for the configure function. -/
structure SchemaProvider where
  ResourcesMap : MapRef
  DataSourcesMap : MapRef
  ConfigureContextFunc : String
  deriving DecidableEq, Repr

/-- The function that `New` returns, run on a heap. -/
def New {ρ : Type} (version : String) (providerResources providerDataSources : MapRef)
    (h : Heap ρ) : SchemaProvider × Heap ρ :=
  let (copiedResources, h) := h.make
  let h := copyEntries h providerResources copiedResources
  let (copiedDataSources, h) := h.make
  let h := copyEntries h providerDataSources copiedDataSources
  ({ ResourcesMap := copiedResources, DataSourcesMap := copiedDataSources,
     ConfigureContextFunc := version }, h)

/-- A heap with a map of two resources (object 0) and a map of one data source (object 1); the
resources are named by numbers. -/
def sampleHeap : Heap Nat where
  size := 2
  read := fun r =>
    if r = 0 then [("genesyscloud_routing_skill_group", 11), ("genesyscloud_user", 12)]
    else if r = 1 then [("genesyscloud_outbound_ruleset", 21)]
    else []

/-! ## The regions -/

/-- The function `getRegionMap`: the Go map literal as the list of its entries. -/
def getRegionMap : List (String × String) :=
  [("dca", "inindca.com"),
   ("tca", "inintca.com"),
   ("us-east-1", "mypurecloud.com"),
   ("us-east-2", "use2.us-gov-pure.cloud"),
   ("us-west-2", "usw2.pure.cloud"),
   ("eu-west-1", "mypurecloud.ie"),
   ("eu-west-2", "euw2.pure.cloud"),
   ("ap-southeast-2", "mypurecloud.com.au"),
   ("ap-northeast-1", "mypurecloud.jp"),
   ("eu-central-1", "mypurecloud.de"),
   ("ca-central-1", "cac1.pure.cloud"),
   ("ap-northeast-2", "apne2.pure.cloud"),
   ("ap-south-1", "aps1.pure.cloud"),
   ("sa-east-1", "sae1.pure.cloud"),
   ("ap-northeast-3", "apne3.pure.cloud"),
   ("eu-central-2", "euc2.pure.cloud"),
   ("me-central-1", "mec1.pure.cloud")]

/-- The function `getAllowedRegions`: the keys of the region map, here in the order of the
literal (Go does not fix the order). -/
def getAllowedRegions : List String :=
  getRegionMap.foldl (fun regionKeys e => regionKeys ++ [e.1]) []

/-- The function `getRegionDomain`. `ToLower` is Go's `strings.ToLower`; a key that is not in a
Go map reads as the empty string. -/
def getRegionDomain (ToLower : String → String) (region : String) : String :=
  (getRegionMap.lookup (ToLower region)).getD ""

/-- The function `GetRegionBasePath`. -/
def GetRegionBasePath (ToLower : String → String) (region : String) : String :=
  "https://api." ++ getRegionDomain ToLower region

/-- The text with its ASCII letters in lower case and every other character as it is. -/
def asciiToLower (s : String) : String :=
  ⟨s.data.map Char.toLower⟩

/-- Every character of the text is an ASCII character. -/
def isASCII (s : String) : Bool :=
  s.data.all (fun c => decide (c.toNat < 128))

/-- The text `r` is the text `key` with some of its letters in upper case: character by
character, `r` has the character of `key` or its upper-case form. -/
def caseMix : List Char → List Char → Bool
  | [], [] => true
  | a :: key, b :: r => (b == a || b == a.toUpper) && caseMix key r
  | _, _ => false

/-- An ASCII character that lower-casing keeps and that upper-casing followed by lower-casing
gives back: a lower-case letter, a digit, a hyphen. -/
def isKeyChar (a : Char) : Bool :=
  a.toLower == a && a.toUpper.toLower == a && decide (a.toNat < 128) &&
    decide (a.toUpper.toNat < 128)

end Provider

/-!
# Outbound ruleset data source

A shallow embedding of
`genesyscloud/outbound_ruleset/data_source_genesyscloud_outbound_ruleset.go`.
-/

namespace OutboundRuleset

open RoutingSkillGroup (RetryCause RetryError RetryableError NonRetryableError)

/-- The `*schema.ResourceData` of the data source: its ID and the field `name`. -/
structure ResourceData where
  Id : String
  name : String
  deriving DecidableEq, Repr

/-- The function literal that `dataSourceOutboundRulesetRead` hands to `WithRetries`: one
attempt. `getOutboundRulesetIdByName` is the method of the proxy: for a name, the ID found, the
retryable flag and the error (`none` for Go's `nil`). -/
def dataSourceOutboundRulesetReadStep
    (getOutboundRulesetIdByName : String → String × Bool × Option String) (d : ResourceData) :
    Option RetryError × ResourceData :=
  let name := d.name
  match getOutboundRulesetIdByName name with
  | (rulesetId, retryable, err) =>
    match err, retryable with
    | some err, false =>
      (some (NonRetryableError (.errorString ("Error ruleset " ++ name ++ ": " ++ err))), d)
    | _, true =>
      (some (RetryableError (.errorString ("No ruleset found with name " ++ name))), d)
    | none, false => (none, { d with Id := rulesetId })

/-- A lookup that knows the ruleset `Collections`, has not yet indexed `Fresh` and fails on
every other name. -/
def sampleLookup : String → String × Bool × Option String := fun name =>
  if name = "Collections" then ("rs-7", false, none)
  else if name = "Fresh" then ("", true, some "no ruleset found")
  else ("", false, some "request failed")

end OutboundRuleset

namespace RoutingSkillGroup

/-! ## Theorems -/

/-! ### The map of resources -/

theorem mem_keys_set (resources : ResourceIDMetaMap) (k : String) (v : ResourceMeta)
    (x : String) : x ∈ (resources.set k v).keys ↔ x ∈ resources.keys ∨ x = k := by
  unfold ResourceIDMetaMap.set ResourceIDMetaMap.keys
  simp only [List.map_append, List.mem_append, List.mem_map, List.mem_filter, List.map_cons,
    List.map_nil, List.mem_singleton]
  constructor
  · rintro (⟨e, ⟨he, -⟩, rfl⟩ | h)
    · exact Or.inl ⟨e, he, rfl⟩
    · exact Or.inr h
  · rintro (⟨e, he, rfl⟩ | h)
    · by_cases hk : e.1 = k
      · exact Or.inr hk
      · exact Or.inl ⟨e, ⟨he, by simpa using hk⟩, rfl⟩
    · exact Or.inr h

theorem nodup_keys_set (resources : ResourceIDMetaMap) (k : String) (v : ResourceMeta)
    (h : resources.keys.Nodup) : (resources.set k v).keys.Nodup := by
  unfold ResourceIDMetaMap.set ResourceIDMetaMap.keys at *
  rw [List.map_append, List.nodup_append]
  refine ⟨(List.filter_sublist _).map Prod.fst |>.nodup h, by simp, ?_⟩
  intro a ha hb
  simp only [List.map_cons, List.map_nil, List.mem_singleton] at hb
  subst hb
  simp only [List.mem_map, List.mem_filter] at ha
  obtain ⟨e, ⟨-, he⟩, rfl⟩ := ha
  simp at he

theorem mem_keys_addDivisions (entities : List Authdivision) (resources : ResourceIDMetaMap)
    (x : String) :
    x ∈ (addDivisions resources entities).keys ↔
      x ∈ resources.keys ∨ ∃ d ∈ entities, d.Id = x := by
  induction entities generalizing resources with
  | nil => simp [addDivisions]
  | cons d rest ih =>
    have step : addDivisions resources (d :: rest)
        = addDivisions (resources.set d.Id { Name := d.Name }) rest := rfl
    rw [step, ih, mem_keys_set]
    simp only [List.mem_cons, exists_eq_or_imp]
    constructor
    · rintro ((h | h) | h)
      · exact Or.inl h
      · exact Or.inr (Or.inl h.symm)
      · exact Or.inr (Or.inr h)
    · rintro (h | h | h)
      · exact Or.inl (Or.inl h)
      · exact Or.inl (Or.inr h.symm)
      · exact Or.inr h

theorem nodup_keys_addDivisions (entities : List Authdivision) (resources : ResourceIDMetaMap)
    (h : resources.keys.Nodup) : (addDivisions resources entities).keys.Nodup := by
  induction entities generalizing resources with
  | nil => simpa [addDivisions] using h
  | cons d rest ih =>
    have step : addDivisions resources (d :: rest)
        = addDivisions (resources.set d.Id { Name := d.Name }) rest := rfl
    rw [step]
    exact ih _ (nodup_keys_set _ _ _ h)

/-! ### The enumeration loop -/

theorem getAllAuthDivisionsLoop_full (c : Configuration) (fuel start : Nat)
    (resources : ResourceIDMetaMap) (h : isFullPage (divisionsPage c start) = true) :
    getAllAuthDivisionsLoop c (fuel + 1) start resources
      = getAllAuthDivisionsLoop c fuel (start + 1)
          (addDivisions resources (pageEntities (divisionsPage c start))) := by
  unfold divisionsPage at h
  rw [getAllAuthDivisionsLoop]
  unfold divisionsPage
  cases hp : c.GetAuthorizationDivisions 100 start with
  | fail resp e => rw [hp] at h; simp [isFullPage] at h
  | ok divisions resp =>
    rw [hp] at h
    obtain ⟨ents⟩ := divisions
    cases ents with
    | none => simp [isFullPage] at h
    | some l =>
      cases l with
      | nil => simp [isFullPage] at h
      | cons d rest => simp [pageEntities]

theorem getAllAuthDivisionsLoop_empty (c : Configuration) (fuel start : Nat)
    (resources : ResourceIDMetaMap) (h : isEmptyPage (divisionsPage c start) = true) :
    getAllAuthDivisionsLoop c (fuel + 1) start resources = some (resources, none) := by
  unfold divisionsPage at h
  rw [getAllAuthDivisionsLoop]
  cases hp : c.GetAuthorizationDivisions 100 start with
  | fail resp e => rw [hp] at h; simp [isEmptyPage] at h
  | ok divisions resp =>
    rw [hp] at h
    obtain ⟨ents⟩ := divisions
    cases ents with
    | none => rfl
    | some l =>
      cases l with
      | nil => rfl
      | cons d rest => simp [isEmptyPage] at h

theorem getAllAuthDivisionsLoop_fail (c : Configuration) (fuel start : Nat)
    (resources : ResourceIDMetaMap) (resp : Option APIResponse) (e : String)
    (h : divisionsPage c start = .fail resp e) :
    getAllAuthDivisionsLoop c (fuel + 1) start resources
      = some ([], some (.BuildAPIDiagnosticError "genesyscloud_auth_division"
          ("Failed to get page of divisions error: " ++ e) resp)) := by
  unfold divisionsPage at h
  rw [getAllAuthDivisionsLoop, h]

theorem getAllAuthDivisionsLoop_skip (c : Configuration) (k : Nat) :
    ∀ (fuel start : Nat) (resources : ResourceIDMetaMap),
      (∀ i, i < k → isFullPage (divisionsPage c (start + i)) = true) →
      getAllAuthDivisionsLoop c (fuel + k) start resources
        = getAllAuthDivisionsLoop c fuel (start + k) (collectPages c k start resources) := by
  induction k with
  | zero => intro fuel start resources _; rfl
  | succ k ih =>
    intro fuel start resources h
    have h0 : isFullPage (divisionsPage c start) = true := by simpa using h 0 (Nat.succ_pos k)
    have e1 : fuel + (k + 1) = (fuel + k) + 1 := by omega
    rw [e1, getAllAuthDivisionsLoop_full c _ _ _ h0, ih]
    · have e2 : start + 1 + k = start + (k + 1) := by omega
      rw [e2]; rfl
    · intro i hi
      have e3 : start + 1 + i = start + (i + 1) := by omega
      rw [e3]
      exact h (i + 1) (by omega)

theorem mem_keys_collectPages (c : Configuration) (k : Nat) :
    ∀ (start : Nat) (resources : ResourceIDMetaMap) (x : String),
      x ∈ (collectPages c k start resources).keys ↔
        x ∈ resources.keys ∨
          ∃ i, i < k ∧ ∃ d ∈ pageEntities (divisionsPage c (start + i)), d.Id = x := by
  induction k with
  | zero => intro start resources x; simp [collectPages]
  | succ k ih =>
    intro start resources x
    rw [collectPages, ih, mem_keys_addDivisions]
    constructor
    · rintro ((h | h) | ⟨i, hi, h⟩)
      · exact Or.inl h
      · exact Or.inr ⟨0, Nat.succ_pos k, by simpa using h⟩
      · refine Or.inr ⟨i + 1, by omega, ?_⟩
        have e : start + (i + 1) = start + 1 + i := by omega
        rw [e]; exact h
    · rintro (h | ⟨i, hi, h⟩)
      · exact Or.inl (Or.inl h)
      · cases i with
        | zero => exact Or.inl (Or.inr (by simpa using h))
        | succ j =>
          refine Or.inr ⟨j, by omega, ?_⟩
          have e : start + 1 + j = start + (j + 1) := by omega
          rw [e]; exact h

theorem nodup_keys_collectPages (c : Configuration) (k : Nat) :
    ∀ (start : Nat) (resources : ResourceIDMetaMap), resources.keys.Nodup →
      (collectPages c k start resources).keys.Nodup := by
  induction k with
  | zero => intro start resources h; exact h
  | succ k ih =>
    intro start resources h
    rw [collectPages]
    exact ih _ _ (nodup_keys_addDivisions _ _ h)

/-- When pages `1 .. n` are full and page `n + 1` is empty, the enumeration returns the map
collected from pages `1 .. n`, for every fuel above `n`. -/
theorem getAllAuthDivisions_of_emptyPage (c : Configuration) (n fuel : Nat) (hfuel : n < fuel)
    (hfull : ∀ i, i < n → isFullPage (divisionsPage c (1 + i)) = true)
    (hlast : isEmptyPage (divisionsPage c (1 + n)) = true) :
    getAllAuthDivisions fuel c = some (collectPages c n 1 [], none) := by
  obtain ⟨f, rfl⟩ : ∃ f, fuel = (f + 1) + n := ⟨fuel - n - 1, by omega⟩
  unfold getAllAuthDivisions
  rw [getAllAuthDivisionsLoop_skip c n _ _ _ hfull, getAllAuthDivisionsLoop_empty c _ _ _ hlast]

/-- When pages `1 .. n` are full and the request for page `n + 1` fails, the enumeration returns
that failure and an empty map, for every fuel above `n`. -/
theorem getAllAuthDivisions_of_failedPage (c : Configuration) (n fuel : Nat) (hfuel : n < fuel)
    (hfull : ∀ i, i < n → isFullPage (divisionsPage c (1 + i)) = true)
    (resp : Option APIResponse) (e : String) (hlast : divisionsPage c (1 + n) = .fail resp e) :
    getAllAuthDivisions fuel c
      = some ([], some (.BuildAPIDiagnosticError "genesyscloud_auth_division"
          ("Failed to get page of divisions error: " ++ e) resp)) := by
  obtain ⟨f, rfl⟩ : ∃ f, fuel = (f + 1) + n := ⟨fuel - n - 1, by omega⟩
  unfold getAllAuthDivisions
  rw [getAllAuthDivisionsLoop_skip c n _ _ _ hfull, getAllAuthDivisionsLoop_fail c _ _ _ _ _ hlast]

/-! ### The differ -/

theorem allMemberDivisionsSpecified_eq_true (ids : List String) :
    allMemberDivisionsSpecified ids = true ↔ "*" ∈ ids := by
  simp [allMemberDivisionsSpecified]

theorem allMemberDivisionsSpecified_eq_false (ids : List String) :
    allMemberDivisionsSpecified ids = false ↔ "*" ∉ ids := by
  simp [allMemberDivisionsSpecified]

/-- The differ on a desired list without the wildcard, unfolded. -/
theorem createLists_concrete (resourceName : String) (fuel : Nat) (desired current : List String)
    (create : Bool) (m : ProviderMeta) (h : "*" ∉ desired) :
    createListsForSkillgroupsMembersDivisionsPost resourceName fuel desired current create m
      = if desired.length > 0 then
          if create then some (desired, [], none)
          else some ((organizeMemberDivisionIdsForUpdate desired current).1,
                     (organizeMemberDivisionIdsForUpdate desired current).2, none)
        else some ([], current, none) := by
  unfold createListsForSkillgroupsMembersDivisionsPost
  rw [(allMemberDivisionsSpecified_eq_false desired).2 h]
  simp

/-- The differ on the desired list `["*"]`, unfolded. -/
theorem createLists_wildcard (resourceName : String) (fuel : Nat) (current : List String)
    (create : Bool) (m : ProviderMeta) :
    createListsForSkillgroupsMembersDivisionsPost resourceName fuel ["*"] current create m
      = (getAllAuthDivisionIds fuel m).map (fun r => (r.1, [], r.2)) := by
  unfold createListsForSkillgroupsMembersDivisionsPost
  have h : allMemberDivisionsSpecified ["*"] = true := by simp [allMemberDivisionsSpecified]
  rw [h]
  cases getAllAuthDivisionIds fuel m with
  | none => simp
  | some r => obtain ⟨a, e⟩ := r; simp

/-- C1: a desired list that contains the wildcard `"*"` and has more than one element gets the
validation error and neither an add nor a remove list, whatever the current list and the create
flag; an empty desired list and a desired list of concrete IDs get no error; the desired list
`["*"]` gets no error when the enumeration of the divisions succeeds. -/
theorem createLists_validation (resourceName : String) (fuel : Nat)
    (desired current : List String) (create : Bool) (m : ProviderMeta) :
    ("*" ∈ desired → 1 < desired.length →
      createListsForSkillgroupsMembersDivisionsPost resourceName fuel desired current create m
        = some ([], [],
            some (.BuildDiagnosticError resourceName wildcardErrorText wildcardErrorText))) ∧
    ((desired = [] ∨ "*" ∉ desired) →
      ∃ toAdd toRemove,
        createListsForSkillgroupsMembersDivisionsPost resourceName fuel desired current create m
          = some (toAdd, toRemove, none)) ∧
    (desired = ["*"] → ∀ ids, getAllAuthDivisionIds fuel m = some (ids, none) →
      createListsForSkillgroupsMembersDivisionsPost resourceName fuel desired current create m
        = some (ids, [], none)) := by
  refine ⟨?_, ?_, ?_⟩
  · intro hmem hlen
    unfold createListsForSkillgroupsMembersDivisionsPost
    rw [(allMemberDivisionsSpecified_eq_true desired).2 hmem]
    simp [hlen]
  · intro h
    have hno : "*" ∉ desired := by
      rcases h with h | h
      · subst h; simp
      · exact h
    rw [createLists_concrete resourceName fuel desired current create m hno]
    by_cases hl : desired.length > 0
    · cases create <;> simp [hl]
    · simp [hl]
  · intro hd ids hids
    subst hd
    rw [createLists_wildcard, hids]
    rfl

theorem createLists_validation_witness :
    createListsForSkillgroupsMembersDivisionsPost "skill_group" 2 ["d1", "*"] ["d1"] false
        sampleMeta
      = some ([], [],
          some (.BuildDiagnosticError "skill_group" wildcardErrorText wildcardErrorText)) ∧
    (∃ toAdd toRemove,
      createListsForSkillgroupsMembersDivisionsPost "skill_group" 2 ["d1", "d3"] ["d1"] false
        sampleMeta = some (toAdd, toRemove, none)) ∧
    createListsForSkillgroupsMembersDivisionsPost "skill_group" 2 ["*"] ["d1"] false sampleMeta
      = some (["d1", "d2"], [], none) :=
  ⟨(createLists_validation "skill_group" 2 ["d1", "*"] ["d1"] false sampleMeta).1
      (by decide) (by decide),
   (createLists_validation "skill_group" 2 ["d1", "d3"] ["d1"] false sampleMeta).2.1
      (Or.inr (by decide)),
   (createLists_validation "skill_group" 2 ["*"] ["d1"] false sampleMeta).2.2 rfl
      ["d1", "d2"] (by decide)⟩

/-- C2: on update, a non-empty desired list without the wildcard gives no error, an add list
holding exactly the desired IDs that are not current and a remove list holding exactly the
current IDs that are not desired; from current `d1, d2` to desired `d2, d3` the add list is `d3`
and the remove list is `d1`. -/
theorem createLists_update (resourceName : String) (fuel : Nat) (desired current : List String)
    (m : ProviderMeta) (hne : desired ≠ []) (hno : "*" ∉ desired) :
    (∃ toAdd toRemove,
      createListsForSkillgroupsMembersDivisionsPost resourceName fuel desired current false m
        = some (toAdd, toRemove, none) ∧
      toAdd = desired.filter (fun id => decide (id ∉ current)) ∧
      toRemove = current.filter (fun id => decide (id ∉ desired)) ∧
      (∀ x, x ∈ toAdd ↔ x ∈ desired ∧ x ∉ current) ∧
      (∀ x, x ∈ toRemove ↔ x ∈ current ∧ x ∉ desired)) ∧
    createListsForSkillgroupsMembersDivisionsPost resourceName fuel ["d2", "d3"] ["d1", "d2"]
        false m = some (["d3"], ["d1"], none) := by
  constructor
  · refine ⟨_, _, ?_, rfl, rfl, ?_, ?_⟩
    · rw [createLists_concrete resourceName fuel desired current false m hno]
      have hl : desired.length > 0 := List.length_pos.2 hne
      simp [hl, organizeMemberDivisionIdsForUpdate]
    · intro x; simp
    · intro x; simp
  · rw [createLists_concrete resourceName fuel _ _ false m (by decide)]
    decide

theorem createLists_update_witness :
    (∃ toAdd toRemove,
      createListsForSkillgroupsMembersDivisionsPost "skill_group" 0 ["a", "b", "c"] ["c", "d"]
          false sampleMeta = some (toAdd, toRemove, none) ∧
      toAdd = ["a", "b", "c"].filter (fun id => decide (id ∉ ["c", "d"])) ∧
      toRemove = ["c", "d"].filter (fun id => decide (id ∉ ["a", "b", "c"])) ∧
      (∀ x, x ∈ toAdd ↔ x ∈ ["a", "b", "c"] ∧ x ∉ ["c", "d"]) ∧
      (∀ x, x ∈ toRemove ↔ x ∈ ["c", "d"] ∧ x ∉ ["a", "b", "c"])) ∧
    createListsForSkillgroupsMembersDivisionsPost "skill_group" 0 ["d2", "d3"] ["d1", "d2"]
        false sampleMeta = some (["d3"], ["d1"], none) :=
  createLists_update "skill_group" 0 ["a", "b", "c"] ["c", "d"] sampleMeta (by decide)
    (by decide)

/-- C3: on create, a non-empty desired list without the wildcard gives the desired list itself
as the add list, an empty remove list and no error, whatever the current list; desired `d1, d2`
gives add `d1, d2` and remove empty. -/
theorem createLists_create (resourceName : String) (fuel : Nat) (desired current : List String)
    (m : ProviderMeta) (hne : desired ≠ []) (hno : "*" ∉ desired) :
    createListsForSkillgroupsMembersDivisionsPost resourceName fuel desired current true m
        = some (desired, [], none) ∧
    createListsForSkillgroupsMembersDivisionsPost resourceName fuel ["d1", "d2"] current true m
        = some (["d1", "d2"], [], none) := by
  constructor
  · rw [createLists_concrete resourceName fuel desired current true m hno]
    have hl : desired.length > 0 := List.length_pos.2 hne
    simp [hl]
  · rw [createLists_concrete resourceName fuel _ current true m (by decide)]
    simp

theorem createLists_create_witness :
    createListsForSkillgroupsMembersDivisionsPost "skill_group" 0 ["a", "b"] ["b", "z"] true
        sampleMeta = some (["a", "b"], [], none) ∧
    createListsForSkillgroupsMembersDivisionsPost "skill_group" 0 ["d1", "d2"] ["b", "z"] true
        sampleMeta = some (["d1", "d2"], [], none) :=
  createLists_create "skill_group" 0 ["a", "b"] ["b", "z"] sampleMeta (by decide) (by decide)

/-- C4: with an empty desired list the differ returns an empty add list, the whole current list
as the remove list (same elements, same order) and no error, for either value of the create
flag. -/
theorem createLists_empty (resourceName : String) (fuel : Nat) (current : List String)
    (create : Bool) (m : ProviderMeta) :
    createListsForSkillgroupsMembersDivisionsPost resourceName fuel [] current create m
      = some ([], current, none) := by
  rw [createLists_concrete resourceName fuel [] current create m (by simp)]
  simp

/-- C5: for the desired list `["*"]` the differ returns what the enumeration of the divisions
returns, whatever the current list and the create flag. When pages `1 .. n` of the listing are
full and page `n + 1` is empty, the add list holds exactly the IDs of the divisions of pages
`1 .. n`, each once, the remove list is empty and there is no error; when the request for page
`n + 1` fails instead, the differ returns that failure and no list. -/
theorem createLists_all_divisions (resourceName : String) (fuel : Nat) (current : List String)
    (create : Bool) (m : ProviderMeta) (n : Nat) (hfuel : n < fuel)
    (hfull : ∀ i, i < n → isFullPage (divisionsPage m.ClientConfig (1 + i)) = true) :
    createListsForSkillgroupsMembersDivisionsPost resourceName fuel ["*"] current create m
      = (getAllAuthDivisionIds fuel m).map (fun r => (r.1, [], r.2)) ∧
    (isEmptyPage (divisionsPage m.ClientConfig (1 + n)) = true →
      ∃ toAdd,
        createListsForSkillgroupsMembersDivisionsPost resourceName fuel ["*"] current create m
          = some (toAdd, [], none) ∧
        toAdd.Nodup ∧
        ∀ x, x ∈ toAdd ↔
          ∃ i, i < n ∧ ∃ d ∈ pageEntities (divisionsPage m.ClientConfig (1 + i)), d.Id = x) ∧
    (∀ resp e, divisionsPage m.ClientConfig (1 + n) = .fail resp e →
      createListsForSkillgroupsMembersDivisionsPost resourceName fuel ["*"] current create m
        = some ([], [], some (.BuildAPIDiagnosticError "genesyscloud_auth_division"
            ("Failed to get page of divisions error: " ++ e) resp))) := by
  refine ⟨createLists_wildcard resourceName fuel current create m, ?_, ?_⟩
  · intro hlast
    refine ⟨(collectPages m.ClientConfig n 1 []).keys, ?_, ?_, ?_⟩
    · rw [createLists_wildcard]
      unfold getAllAuthDivisionIds
      rw [getAllAuthDivisions_of_emptyPage m.ClientConfig n fuel hfuel hfull hlast]
      rfl
    · exact nodup_keys_collectPages _ _ _ _ (by simp [ResourceIDMetaMap.keys])
    · intro x
      rw [mem_keys_collectPages]
      simp [ResourceIDMetaMap.keys]
  · intro resp e hlast
    rw [createLists_wildcard]
    unfold getAllAuthDivisionIds
    rw [getAllAuthDivisions_of_failedPage m.ClientConfig n fuel hfuel hfull resp e hlast]
    rfl

theorem createLists_all_divisions_witness :
    createListsForSkillgroupsMembersDivisionsPost "skill_group" 2 ["*"] ["d9"] false sampleMeta
      = some (["d1", "d2"], [], none) ∧
    createListsForSkillgroupsMembersDivisionsPost "skill_group" 2 ["*"] ["d9"] false failingMeta
      = some ([], [], some (.BuildAPIDiagnosticError "genesyscloud_auth_division"
          ("Failed to get page of divisions error: " ++ "boom") (some { StatusCode := 500 }))) :=
  ⟨(createLists_all_divisions "skill_group" 2 ["d9"] false sampleMeta 1 (by decide)
      (by intro i hi; interval_cases i; decide)).1.trans (by decide),
   (createLists_all_divisions "skill_group" 2 ["d9"] false failingMeta 0 (by decide)
      (by intro i hi; omega)).2.2 _ _ rfl⟩

/-- C6: whatever the differ returns, its add list and its remove list have no element in common;
and on update with a desired list free of the wildcard, every desired ID is in the add list or
in the current list. -/
theorem createLists_disjoint (resourceName : String) (fuel : Nat) (desired current : List String)
    (create : Bool) (m : ProviderMeta) (toAdd toRemove : List String) (err : Option Diagnostics)
    (h : createListsForSkillgroupsMembersDivisionsPost resourceName fuel desired current create m
      = some (toAdd, toRemove, err)) :
    (∀ x, x ∈ toAdd → x ∉ toRemove) ∧
    (create = false → "*" ∉ desired → ∀ x, x ∈ desired → x ∈ toAdd ∨ x ∈ current) := by
  by_cases hw : "*" ∈ desired
  · refine ⟨?_, fun _ hno => absurd hw hno⟩
    unfold createListsForSkillgroupsMembersDivisionsPost at h
    rw [(allMemberDivisionsSpecified_eq_true desired).2 hw] at h
    by_cases hl : desired.length > 1
    · simp [hl] at h
      obtain ⟨rfl, rfl, -⟩ := h
      simp
    · simp only [if_true, hl, if_false] at h
      cases hg : getAllAuthDivisionIds fuel m with
      | none => rw [hg] at h; simp at h
      | some r =>
        obtain ⟨a, e⟩ := r
        rw [hg] at h
        simp at h
        obtain ⟨-, rfl, -⟩ := h
        simp
  · rw [createLists_concrete resourceName fuel desired current create m hw] at h
    by_cases hl : desired.length > 0
    · cases create
      · simp [hl, organizeMemberDivisionIdsForUpdate] at h
        obtain ⟨rfl, rfl, -⟩ := h
        constructor
        · intro x hx
          simp at hx ⊢
          intro _
          exact hx.1
        · intro _ _ x hx
          by_cases hc : x ∈ current
          · exact Or.inr hc
          · exact Or.inl (by simp [hx, hc])
      · simp [hl] at h
        obtain ⟨rfl, rfl, -⟩ := h
        exact ⟨by simp, fun hc => by simp at hc⟩
    · simp [hl] at h
      obtain ⟨rfl, rfl, -⟩ := h
      refine ⟨by simp, fun _ _ x hx => ?_⟩
      have : desired = [] := by
        cases desired with
        | nil => rfl
        | cons a t => simp at hl
      subst this
      simp at hx

theorem createLists_disjoint_witness :
    (∀ x, x ∈ ["d3"] → x ∉ ["d1"]) ∧
    (false = false → "*" ∉ ["d2", "d3"] → ∀ x, x ∈ ["d2", "d3"] → x ∈ ["d3"] ∨ x ∈ ["d1", "d2"]) :=
  createLists_disjoint "skill_group" 0 ["d2", "d3"] ["d1", "d2"] false sampleMeta ["d3"] ["d1"]
    none (by decide)

/-- C7, as stated, fails: on update from current `d1` to desired `d1, d2` the first run adds `d2`,
and the second run, with current `d2`, adds `d1`; on create the second run returns the desired
list again; and with the wildcard the second run returns all divisions again. -/
theorem createLists_second_run_not_empty :
    (createListsForSkillgroupsMembersDivisionsPost "skill_group" 2 ["d1", "d2"] ["d1"] false
        sampleMeta = some (["d2"], [], none) ∧
     createListsForSkillgroupsMembersDivisionsPost "skill_group" 2 ["d1", "d2"] ["d2"] false
        sampleMeta = some (["d1"], [], none)) ∧
    (createListsForSkillgroupsMembersDivisionsPost "skill_group" 2 ["d1"] [] true
        sampleMeta = some (["d1"], [], none) ∧
     createListsForSkillgroupsMembersDivisionsPost "skill_group" 2 ["d1"] ["d1"] true
        sampleMeta = some (["d1"], [], none)) ∧
    (createListsForSkillgroupsMembersDivisionsPost "skill_group" 2 ["*"] [] false
        sampleMeta = some (["d1", "d2"], [], none) ∧
     createListsForSkillgroupsMembersDivisionsPost "skill_group" 2 ["*"] ["d1", "d2"] false
        sampleMeta = some (["d1", "d2"], [], none)) ∧
    ¬ (∀ (desired current toAdd toRemove : List String) (create : Bool),
        createListsForSkillgroupsMembersDivisionsPost "skill_group" 2 desired current create
          sampleMeta = some (toAdd, toRemove, none) →
        createListsForSkillgroupsMembersDivisionsPost "skill_group" 2 desired toAdd create
          sampleMeta = some ([], [], none)) :=
  ⟨⟨by decide, by decide⟩, ⟨by decide, by decide⟩, ⟨by decide, by decide⟩,
   fun h => absurd (h ["d1", "d2"] ["d1"] ["d2"] [] false (by decide)) (by decide)⟩

/-- C7, amended: for a desired list without the wildcard, when the first run is a create, or an
update from a current list that shares no ID with the desired list, a second run as an update
with current equal to the add list of the first run returns an empty add list, an empty remove
list and no error. -/
theorem createLists_second_run (resourceName : String) (fuel : Nat)
    (desired current : List String) (create : Bool) (m : ProviderMeta)
    (toAdd toRemove : List String) (hno : "*" ∉ desired)
    (hfirst : createListsForSkillgroupsMembersDivisionsPost resourceName fuel desired current
      create m = some (toAdd, toRemove, none))
    (hfresh : create = true ∨ ∀ x, x ∈ desired → x ∉ current) :
    createListsForSkillgroupsMembersDivisionsPost resourceName fuel desired toAdd false m
      = some ([], [], none) := by
  rw [createLists_concrete resourceName fuel desired current create m hno] at hfirst
  rw [createLists_concrete resourceName fuel desired toAdd false m hno]
  by_cases hl : desired.length > 0
  · have hadd : toAdd = desired := by
      rcases hfresh with hc | hd
      · subst hc
        simp [hl] at hfirst
        exact hfirst.1.symm
      · cases create
        · simp [hl, organizeMemberDivisionIdsForUpdate] at hfirst
          rw [← hfirst.1]
          exact List.filter_eq_self.2 (fun x hx => by simpa using hd x hx)
        · simp [hl] at hfirst
          exact hfirst.1.symm
    subst hadd
    simp [hl, organizeMemberDivisionIdsForUpdate]
  · simp [hl] at hfirst
    simp [hl, ← hfirst.1]

theorem createLists_second_run_witness :
    createListsForSkillgroupsMembersDivisionsPost "skill_group" 0 ["d1", "d2"] ["d1", "d2"] false
      sampleMeta = some ([], [], none) :=
  createLists_second_run "skill_group" 0 ["d1", "d2"] ["d9"] false sampleMeta ["d1", "d2"]
    ["d9"] (by decide) (by decide) (Or.inr (by decide))

/-! ### Calls issued by the handlers -/

theorem memberDivisionPosts_append_get (calls : List Call) (id : String) :
    memberDivisionPosts (calls ++ [.getRoutingSkillGroupsById id]) = memberDivisionPosts calls := by
  simp [memberDivisionPosts, List.countP_append]

theorem memberDivisionPosts_append_post (calls : List Call) (id : String)
    (reqBody : Skillgroupmemberdivisions) :
    memberDivisionPosts (calls ++ [.createRoutingSkillGroupsMemberDivision id reqBody])
      = memberDivisionPosts calls + 1 := by
  simp [memberDivisionPosts, List.countP_append]

theorem memberDivisionPosts_WithRetries (method : Run → Option RetryError × Run)
    (hmethod : ∀ s, memberDivisionPosts (method s).2.calls = memberDivisionPosts s.calls)
    (attempts : Nat) :
    ∀ (last : Option RetryCause) (s : Run),
      memberDivisionPosts (WithRetries method attempts last s).2.calls
        = memberDivisionPosts s.calls := by
  induction attempts with
  | zero => intro last s; rfl
  | succ n ih =>
    intro last s
    rw [WithRetries]
    have hm := hmethod s
    cases hr : method s with
    | mk r s' =>
      rw [hr] at hm
      cases r with
      | none => exact hm
      | some e =>
        by_cases he : e.Retryable = true
        · simp only [he, if_true]
          rw [ih]; exact hm
        · simp only [he]
          exact hm

theorem memberDivisionPosts_readSkillGroupsStep (pkg : Package) (proxy : RoutingSkillGroupProxy)
    (cc : ResourceData → Option RetryError) (s : Run) :
    memberDivisionPosts (readSkillGroupsStep pkg proxy cc s).2.calls
      = memberDivisionPosts s.calls := by
  unfold readSkillGroupsStep
  cases proxy.getRoutingSkillGroupsById s.calls s.d.Id with
  | fail resp err =>
    by_cases h : IsStatus404 resp = true <;> simp [h, memberDivisionPosts_append_get]
  | ok skillGroup resp => simp [memberDivisionPosts_append_get]

theorem memberDivisionPosts_readSkillGroups (pkg : Package) (attempts : Nat) (m : ProviderMeta)
    (s : Run) :
    memberDivisionPosts (readSkillGroups pkg attempts m s).2.calls
      = memberDivisionPosts s.calls := by
  unfold readSkillGroups WithRetriesForRead
  apply memberDivisionPosts_WithRetries
  intro t
  have h := memberDivisionPosts_readSkillGroupsStep pkg
    (getRoutingSkillGroupProxy m.ClientConfig) (pkg.NewConsistencyCheck s.d) t
  cases hr : readSkillGroupsStep pkg (getRoutingSkillGroupProxy m.ClientConfig)
      (pkg.NewConsistencyCheck s.d) t with
  | mk r t' =>
    rw [hr] at h
    cases r with
    | none => exact h
    | some e =>
      by_cases hc : (e.is404 && !t'.d.IsNewResource) = true
      · simp only [hc, if_true]; exact h
      · simp only [hc]; exact h

/-- C8: when the add list and the remove list computed for the resource are both empty,
`createRoutingSkillGroupsMemberDivisions` issues no member-division post; when at least one of
them is not empty it issues exactly one, for the ID of the resource and with the non-empty lists
in its body, and no other call. -/
theorem createRoutingSkillGroupsMemberDivisions_posts (pkg : Package) (fuel attempts : Nat)
    (m : ProviderMeta) (skillGroupDivisionIds : List String) (create : Bool) (s : Run)
    (schemaDivisionIds toAdd toRemove0 toRemove : List String)
    (hschema : s.d.member_division_ids = some schemaDivisionIds)
    (hlists : createListsForSkillgroupsMembersDivisionsPost pkg.resourceName fuel
      schemaDivisionIds skillGroupDivisionIds create m = some (toAdd, toRemove0, none))
    (hremove : pkg.removeSkillGroupDivisionID s.d toRemove0 = (toRemove, none)) :
    ∃ r, createRoutingSkillGroupsMemberDivisions pkg fuel attempts m skillGroupDivisionIds
        create s = some r ∧
      (toAdd = [] ∧ toRemove = [] →
        memberDivisionPosts r.2.calls = memberDivisionPosts s.calls) ∧
      (¬ (toAdd = [] ∧ toRemove = []) →
        memberDivisionPosts r.2.calls = memberDivisionPosts s.calls + 1 ∧
        r.2.calls = s.calls ++ [.createRoutingSkillGroupsMemberDivision s.d.Id
          { RemoveDivisionIds := if toRemove.length > 0 then some toRemove else none,
            AddDivisionIds := if toAdd.length > 0 then some toAdd else none }]) := by
  unfold createRoutingSkillGroupsMemberDivisions
  simp only [hschema, hlists, hremove]
  by_cases hboth : toAdd = [] ∧ toRemove = []
  · obtain ⟨rfl, rfl⟩ := hboth
    refine ⟨_, by simp, fun _ => memberDivisionPosts_readSkillGroups pkg attempts m s,
      fun h => absurd ⟨rfl, rfl⟩ h⟩
  · have hguard : (decide (toAdd.length < 1) && decide (toRemove.length < 1)) = false := by
      rw [Bool.and_eq_false_iff]
      by_cases ha : toAdd = []
      · right
        have hr : toRemove ≠ [] := fun hr => hboth ⟨ha, hr⟩
        have := List.length_pos.2 hr
        exact decide_eq_false (by omega)
      · left
        have := List.length_pos.2 ha
        exact decide_eq_false (by omega)
    simp only [hguard]
    cases hp : (getRoutingSkillGroupProxy m.ClientConfig).createRoutingSkillGroupsMemberDivision
        s.calls s.d.Id
        { RemoveDivisionIds := if toRemove.length > 0 then some toRemove else none,
          AddDivisionIds := if toAdd.length > 0 then some toAdd else none } with
    | mk resp err =>
      cases err with
      | none =>
        refine ⟨_, rfl, fun h => absurd h hboth, fun _ => ⟨?_, ?_⟩⟩
        · simp [memberDivisionPosts_append_post]
        · simp
      | some e =>
        refine ⟨_, rfl, fun h => absurd h hboth, fun _ => ⟨?_, ?_⟩⟩
        · simp [memberDivisionPosts_append_post]
        · simp

theorem createRoutingSkillGroupsMemberDivisions_posts_witness :
    (∃ r, createRoutingSkillGroupsMemberDivisions samplePackage 2 3 sampleMeta ["d1", "d3"]
        false { d := sampleData, calls := [] } = some r ∧
      (["d2"] = [] ∧ ["d3"] = [] → memberDivisionPosts r.2.calls = memberDivisionPosts []) ∧
      (¬ (["d2"] = [] ∧ ["d3"] = []) →
        memberDivisionPosts r.2.calls = memberDivisionPosts [] + 1 ∧
        r.2.calls = [] ++ [.createRoutingSkillGroupsMemberDivision sampleData.Id
          { RemoveDivisionIds := if ["d3"].length > 0 then some ["d3"] else none,
            AddDivisionIds := if ["d2"].length > 0 then some ["d2"] else none }])) ∧
    (∃ r, createRoutingSkillGroupsMemberDivisions samplePackage 2 3 sampleMeta ["d2", "d1"]
        false { d := sampleData, calls := [] } = some r ∧
      (([] : List String) = [] ∧ ([] : List String) = [] →
        memberDivisionPosts r.2.calls = memberDivisionPosts []) ∧
      (¬ (([] : List String) = [] ∧ ([] : List String) = []) →
        memberDivisionPosts r.2.calls = memberDivisionPosts [] + 1 ∧
        r.2.calls = [] ++ [.createRoutingSkillGroupsMemberDivision sampleData.Id
          { RemoveDivisionIds :=
              if ([] : List String).length > 0 then some ([] : List String) else none,
            AddDivisionIds :=
              if ([] : List String).length > 0 then some ([] : List String) else none }])) :=
  ⟨createRoutingSkillGroupsMemberDivisions_posts samplePackage 2 3 sampleMeta ["d1", "d3"] false
      { d := sampleData, calls := [] } ["d2"] ["d2"] ["d1", "d3"] ["d3"] rfl (by decide)
      (by decide),
   createRoutingSkillGroupsMemberDivisions_posts samplePackage 2 3 sampleMeta ["d2", "d1"] false
      { d := sampleData, calls := [] } ["d2"] [] ["d1"] [] rfl (by decide) (by decide)⟩

/-! ### The delete poll and the read step -/

theorem containsText_append_right (a b : String) : containsText (a ++ b) b := by
  unfold containsText
  rw [String.data_append]
  exact ⟨a.data, [], by simp⟩

/-- While every get-by-id finds the skill group, the polls use up every attempt, and the
diagnostics of the deadline carry the still-exists error of the last poll. -/
theorem WithRetries_deleteSkillGroupsPoll_stuck (pkg : Package) (proxy : RoutingSkillGroupProxy)
    (hstuck : ∀ calls id, ∃ sg resp, proxy.getRoutingSkillGroupsById calls id = .ok sg resp)
    (attempts : Nat) :
    ∀ (last : Option RetryCause) (s : Run),
      ∃ last', (WithRetries (deleteSkillGroupsPoll pkg proxy) attempts last s).1
          = some (.DeadlineExceeded last') ∧
        (attempts = 0 → last' = last) ∧
        (0 < attempts → ∃ resp, last' = some (.BuildWithRetriesApiDiagnosticError
          pkg.resourceName ("Skill group " ++ s.d.Id ++ " still exists") resp)) := by
  induction attempts with
  | zero => intro last s; exact ⟨last, rfl, fun _ => rfl, fun h => absurd h (by decide)⟩
  | succ n ih =>
    intro last s
    obtain ⟨sg, resp, hget⟩ := hstuck s.calls s.d.Id
    have hpoll : deleteSkillGroupsPoll pkg proxy s
        = (some (RetryableError (.BuildWithRetriesApiDiagnosticError pkg.resourceName
            ("Skill group " ++ s.d.Id ++ " still exists") resp)),
           { s with calls := s.calls ++ [.getRoutingSkillGroupsById s.d.Id] }) := by
      unfold deleteSkillGroupsPoll
      rw [hget]
    rw [WithRetries, hpoll]
    simp only [RetryableError, if_true]
    obtain ⟨last', h1, h2, h3⟩ := ih
      (some (.BuildWithRetriesApiDiagnosticError pkg.resourceName
        ("Skill group " ++ s.d.Id ++ " still exists") resp))
      { s with calls := s.calls ++ [.getRoutingSkillGroupsById s.d.Id] }
    refine ⟨last', h1, fun h => absurd h (Nat.succ_ne_zero n), fun _ => ?_⟩
    rcases Nat.eq_zero_or_pos n with hn | hn
    · exact ⟨resp, h2 hn⟩
    · exact h3 hn

/-- C9: a poll of `deleteSkillGroups` reports success exactly when the get-by-id call fails with
a 404 response; when the get succeeds it reports a retryable error whose text says the skill
group still exists; when the get fails with another status it reports a non-retryable error; and
when the remote delete succeeded and every poll that fits before the deadline finds the skill
group, the handler returns the failure of the deadline carrying that still-exists error. -/
theorem deleteSkillGroupsPoll_classifies (pkg : Package) (proxy : RoutingSkillGroupProxy)
    (s : Run) :
    ((deleteSkillGroupsPoll pkg proxy s).1 = none ↔
      ∃ resp err, proxy.getRoutingSkillGroupsById s.calls s.d.Id = .fail resp err ∧
        IsStatus404 resp = true) ∧
    (∀ sg resp, proxy.getRoutingSkillGroupsById s.calls s.d.Id = .ok sg resp →
      (deleteSkillGroupsPoll pkg proxy s).1
        = some { Err := .BuildWithRetriesApiDiagnosticError pkg.resourceName
                   ("Skill group " ++ s.d.Id ++ " still exists") resp,
                 Retryable := true } ∧
      containsText ("Skill group " ++ s.d.Id ++ " still exists") " still exists") ∧
    (∀ resp err, proxy.getRoutingSkillGroupsById s.calls s.d.Id = .fail resp err →
      IsStatus404 resp = false →
      (deleteSkillGroupsPoll pkg proxy s).1
        = some { Err := .BuildWithRetriesApiDiagnosticError pkg.resourceName
                   ("Error deleting skill group " ++ s.d.Id ++ " | error: " ++ err) resp,
                 Retryable := false }) ∧
    (∀ (m : ProviderMeta) (attempts : Nat), getRoutingSkillGroupProxy m.ClientConfig = proxy →
      (proxy.deleteRoutingSkillGroup s.calls s.d.Id).2 = none →
      (∀ calls id, ∃ sg resp, proxy.getRoutingSkillGroupsById calls id = .ok sg resp) →
      0 < attempts →
      ∃ resp, (deleteSkillGroups pkg attempts m s).1
        = some (.DeadlineExceeded (some (.BuildWithRetriesApiDiagnosticError pkg.resourceName
            ("Skill group " ++ s.d.Id ++ " still exists") resp)))) := by
  refine ⟨?_, ?_, ?_, ?_⟩
  · unfold deleteSkillGroupsPoll
    cases hget : proxy.getRoutingSkillGroupsById s.calls s.d.Id with
    | fail resp err =>
      by_cases h : IsStatus404 resp = true
      · simp [h]
      · simp [h]
    | ok sg resp => simp
  · intro sg resp hget
    refine ⟨?_, containsText_append_right _ _⟩
    unfold deleteSkillGroupsPoll
    rw [hget]
    rfl
  · intro resp err hget h404
    unfold deleteSkillGroupsPoll
    rw [hget]
    simp [h404, NonRetryableError]
  · intro m attempts hproxy hdel hstuck hpos
    unfold deleteSkillGroups
    simp only [hproxy]
    cases hd : proxy.deleteRoutingSkillGroup s.calls s.d.Id with
    | mk resp err =>
      rw [hd] at hdel
      simp only at hdel
      subst hdel
      simp only
      obtain ⟨last', h1, -, h3⟩ := WithRetries_deleteSkillGroupsPoll_stuck pkg proxy hstuck
        attempts none { s with calls := s.calls ++ [.deleteRoutingSkillGroup s.d.Id] }
      obtain ⟨resp', hlast⟩ := h3 hpos
      exact ⟨resp', by rw [h1, hlast]⟩

theorem deleteSkillGroupsPoll_classifies_witness :
    (deleteSkillGroupsPoll samplePackage goneAfterTwoReads
      { d := sampleData,
        calls := [.getRoutingSkillGroupsById "sg-1", .getRoutingSkillGroupsById "sg-1"] }).1
        = none ∧
    (deleteSkillGroupsPoll samplePackage serverError { d := sampleData, calls := [] }).1
      = some { Err := .BuildWithRetriesApiDiagnosticError samplePackage.resourceName
                 ("Error deleting skill group " ++ sampleData.Id ++ " | error: " ++
                   "server error") (some { StatusCode := 500 }),
               Retryable := false } ∧
    (∃ resp, (deleteSkillGroups samplePackage 3 stuckMeta { d := sampleData, calls := [] }).1
      = some (.DeadlineExceeded (some (.BuildWithRetriesApiDiagnosticError
          samplePackage.resourceName ("Skill group " ++ sampleData.Id ++ " still exists")
          resp)))) :=
  ⟨(deleteSkillGroupsPoll_classifies samplePackage goneAfterTwoReads
      { d := sampleData,
        calls := [.getRoutingSkillGroupsById "sg-1", .getRoutingSkillGroupsById "sg-1"] }).1.2
      ⟨some { StatusCode := 404 }, "not found", rfl, by decide⟩,
   (deleteSkillGroupsPoll_classifies samplePackage serverError
      { d := sampleData, calls := [] }).2.2.1 (some { StatusCode := 500 }) "server error" rfl
      (by decide),
   (deleteSkillGroupsPoll_classifies samplePackage neverGone
      { d := sampleData, calls := [] }).2.2.2 stuckMeta 3 rfl rfl
      (fun _ _ => ⟨sampleSkillGroup, some { StatusCode := 200 }, rfl⟩) (by decide)⟩

/-- C10, on the code: the read step of `readSkillGroups` reports a retryable error for every
failure of the get-by-id call, whatever the status of the response: for a response of status 404
and, with the same error, for a response of status 500. -/
theorem readSkillGroupsStep_failure_retryable :
    (∀ (pkg : Package) (proxy : RoutingSkillGroupProxy)
        (cc : ResourceData → Option RetryError) (s : Run) (resp : Option APIResponse)
        (err : String),
      proxy.getRoutingSkillGroupsById s.calls s.d.Id = .fail resp err →
      (readSkillGroupsStep pkg proxy cc s).1
        = some { Err := .BuildWithRetriesApiDiagnosticError pkg.resourceName
                   ("Failed to read skill groups " ++ s.d.Id ++ " | error: " ++ err) resp,
                 Retryable := true }) ∧
    (readSkillGroupsStep samplePackage serverError (fun _ => none)
      { d := sampleData, calls := [] })
      = (some { Err := .BuildWithRetriesApiDiagnosticError "genesyscloud_routing_skill_group"
                  "Failed to read skill groups sg-1 | error: server error"
                  (some { StatusCode := 500 }),
                Retryable := true },
         { d := sampleData, calls := [.getRoutingSkillGroupsById "sg-1"] }) := by
  refine ⟨?_, by decide⟩
  intro pkg proxy cc s resp err hget
  unfold readSkillGroupsStep
  rw [hget]
  by_cases h : IsStatus404 resp = true <;> simp [h, RetryableError]

/-! ### The pages of the division listing -/

theorem mem_set (resources : ResourceIDMetaMap) (k : String) (v : ResourceMeta)
    (e : String × ResourceMeta) (h : e ∈ resources.set k v) : e ∈ resources ∨ e = (k, v) := by
  unfold ResourceIDMetaMap.set at h
  rw [List.mem_append, List.mem_filter, List.mem_singleton] at h
  rcases h with ⟨h, -⟩ | h
  · exact Or.inl h
  · exact Or.inr h

theorem mem_addDivisions (entities : List Authdivision) (resources : ResourceIDMetaMap)
    (e : String × ResourceMeta) (h : e ∈ addDivisions resources entities) :
    e ∈ resources ∨ ∃ d ∈ entities, e = (d.Id, { Name := d.Name }) := by
  induction entities generalizing resources with
  | nil => exact Or.inl h
  | cons d rest ih =>
    have step : addDivisions resources (d :: rest)
        = addDivisions (resources.set d.Id { Name := d.Name }) rest := rfl
    rw [step] at h
    rcases ih _ h with h | ⟨d', hd', he⟩
    · rcases mem_set _ _ _ _ h with h | h
      · exact Or.inl h
      · exact Or.inr ⟨d, List.mem_cons_self _ _, h⟩
    · exact Or.inr ⟨d', List.mem_cons_of_mem _ hd', he⟩

theorem mem_collectPages (c : Configuration) (k : Nat) :
    ∀ (start : Nat) (resources : ResourceIDMetaMap) (e : String × ResourceMeta),
      e ∈ collectPages c k start resources →
        e ∈ resources ∨
          ∃ i, i < k ∧ ∃ d ∈ pageEntities (divisionsPage c (start + i)),
            e = (d.Id, { Name := d.Name }) := by
  induction k with
  | zero => intro start resources e h; exact Or.inl h
  | succ k ih =>
    intro start resources e h
    rw [collectPages] at h
    rcases ih _ _ _ h with h | ⟨i, hi, d, hd, he⟩
    · rcases mem_addDivisions _ _ _ h with h | ⟨d, hd, he⟩
      · exact Or.inl h
      · exact Or.inr ⟨0, Nat.succ_pos k, d, by simpa using hd, he⟩
    · refine Or.inr ⟨i + 1, by omega, d, ?_, he⟩
      have e1 : start + (i + 1) = start + 1 + i := by omega
      rw [e1]; exact hd

theorem collectPages_congr (c c' : Configuration) (k : Nat) :
    ∀ (start : Nat) (resources : ResourceIDMetaMap),
      (∀ i, i < k → divisionsPage c' (start + i) = divisionsPage c (start + i)) →
      collectPages c' k start resources = collectPages c k start resources := by
  induction k with
  | zero => intro start resources _; rfl
  | succ k ih =>
    intro start resources h
    have h0 : divisionsPage c' start = divisionsPage c start := by
      simpa using h 0 (Nat.succ_pos k)
    rw [collectPages, collectPages, h0]
    apply ih
    intro i hi
    have e1 : start + 1 + i = start + (i + 1) := by omega
    rw [e1]
    exact h (i + 1) (by omega)

/-- C15: `getAllAuthDivisions` asks for pages 1, 2, 3, ... of 100 divisions. When pages `1 .. n`
are full and page `n + 1` has an absent or empty entity list, it returns, for every fuel above
`n`, a map whose keys are exactly the IDs of the divisions of pages `1 .. n`, each once, every
key mapped to the name of a division of those pages with that ID, and the result is the same for
every remote system that gives the same answers for pages `1 .. n + 1` of size 100. When the
request for page `n + 1` fails instead, it returns that failure and an empty map. -/
theorem getAllAuthDivisions_pages (c : Configuration) (n fuel : Nat) (hfuel : n < fuel)
    (hfull : ∀ i, i < n → isFullPage (divisionsPage c (1 + i)) = true) :
    (isEmptyPage (divisionsPage c (1 + n)) = true →
      ∃ resources, getAllAuthDivisions fuel c = some (resources, none) ∧
        resources.keys.Nodup ∧
        (∀ x, x ∈ resources.keys ↔
          ∃ i, i < n ∧ ∃ d ∈ pageEntities (divisionsPage c (1 + i)), d.Id = x) ∧
        (∀ id name, (id, { Name := name }) ∈ resources →
          ∃ i, i < n ∧ ∃ d ∈ pageEntities (divisionsPage c (1 + i)),
            d.Id = id ∧ d.Name = name) ∧
        (∀ c' : Configuration,
          (∀ i, i ≤ n → c'.GetAuthorizationDivisions 100 (1 + i)
            = c.GetAuthorizationDivisions 100 (1 + i)) →
          getAllAuthDivisions fuel c' = some (resources, none))) ∧
    (∀ resp e, divisionsPage c (1 + n) = .fail resp e →
      getAllAuthDivisions fuel c
        = some ([], some (.BuildAPIDiagnosticError "genesyscloud_auth_division"
            ("Failed to get page of divisions error: " ++ e) resp))) := by
  refine ⟨fun hlast => ⟨collectPages c n 1 [], ?_, ?_, ?_, ?_, ?_⟩, ?_⟩
  · exact getAllAuthDivisions_of_emptyPage c n fuel hfuel hfull hlast
  · exact nodup_keys_collectPages _ _ _ _ (by simp [ResourceIDMetaMap.keys])
  · intro x
    rw [mem_keys_collectPages]
    simp [ResourceIDMetaMap.keys]
  · intro id name h
    rcases mem_collectPages c n 1 [] _ h with h | ⟨i, hi, d, hd, he⟩
    · simp at h
    · simp only [Prod.mk.injEq, ResourceMeta.mk.injEq] at he
      exact ⟨i, hi, d, hd, he.1.symm, he.2.symm⟩
  · intro c' hsame
    have hpage : ∀ i, i ≤ n → divisionsPage c' (1 + i) = divisionsPage c (1 + i) :=
      fun i hi => hsame i hi
    rw [getAllAuthDivisions_of_emptyPage c' n fuel hfuel
      (fun i hi => by rw [hpage i (by omega)]; exact hfull i hi)
      (by rw [hpage n (Nat.le_refl n)]; exact hlast)]
    rw [collectPages_congr c c' n 1 [] (fun i hi => hpage i (by omega))]
  · intro resp e hlast
    exact getAllAuthDivisions_of_failedPage c n fuel hfuel hfull resp e hlast

theorem getAllAuthDivisions_pages_witness :
    (∃ resources, getAllAuthDivisions 2 sampleConfig = some (resources, none) ∧
      resources.keys.Nodup ∧
      (∀ x, x ∈ resources.keys ↔
        ∃ i, i < 1 ∧ ∃ d ∈ pageEntities (divisionsPage sampleConfig (1 + i)), d.Id = x)) ∧
    getAllAuthDivisions 2 failingConfig
      = some ([], some (.BuildAPIDiagnosticError "genesyscloud_auth_division"
          ("Failed to get page of divisions error: " ++ "boom") (some { StatusCode := 500 }))) :=
  ⟨by
    obtain ⟨resources, h1, h2, h3, -⟩ := (getAllAuthDivisions_pages sampleConfig 1 2 (by decide)
      (by intro i hi; interval_cases i; decide)).1 (by decide)
    exact ⟨resources, h1, h2, h3⟩,
   (getAllAuthDivisions_pages failingConfig 0 2 (by decide) (by intro i hi; omega)).2 _ _ rfl⟩

/-! ### The create and update handlers -/

theorem countP_append_one (p : Call → Bool) (calls : List Call) (c : Call) (hc : p c = false) :
    (calls ++ [c]).countP p = calls.countP p := by
  simp [List.countP_append, List.countP_cons, hc]

theorem countP_WithRetries (p : Call → Bool) (method : Run → Option RetryError × Run)
    (hmethod : ∀ s, (method s).2.calls.countP p = s.calls.countP p) (attempts : Nat) :
    ∀ (last : Option RetryCause) (s : Run),
      (WithRetries method attempts last s).2.calls.countP p = s.calls.countP p := by
  induction attempts with
  | zero => intro last s; rfl
  | succ n ih =>
    intro last s
    rw [WithRetries]
    have hm := hmethod s
    cases hr : method s with
    | mk r s' =>
      rw [hr] at hm
      cases r with
      | none => exact hm
      | some e =>
        by_cases he : e.Retryable = true
        · simp only [he, if_true]
          rw [ih]; exact hm
        · simp only [he]
          exact hm

theorem countP_readSkillGroupsStep (p : Call → Bool)
    (hget : ∀ id, p (.getRoutingSkillGroupsById id) = false) (pkg : Package)
    (proxy : RoutingSkillGroupProxy) (cc : ResourceData → Option RetryError) (s : Run) :
    (readSkillGroupsStep pkg proxy cc s).2.calls.countP p = s.calls.countP p := by
  unfold readSkillGroupsStep
  cases proxy.getRoutingSkillGroupsById s.calls s.d.Id with
  | fail resp err =>
    by_cases h : IsStatus404 resp = true <;> simp [h, countP_append_one p _ _ (hget _)]
  | ok skillGroup resp => simp [countP_append_one p _ _ (hget _)]

theorem countP_readSkillGroups (p : Call → Bool)
    (hget : ∀ id, p (.getRoutingSkillGroupsById id) = false) (pkg : Package) (attempts : Nat)
    (m : ProviderMeta) (s : Run) :
    (readSkillGroups pkg attempts m s).2.calls.countP p = s.calls.countP p := by
  unfold readSkillGroups WithRetriesForRead
  apply countP_WithRetries
  intro t
  have h := countP_readSkillGroupsStep p hget pkg
    (getRoutingSkillGroupProxy m.ClientConfig) (pkg.NewConsistencyCheck s.d) t
  cases hr : readSkillGroupsStep pkg (getRoutingSkillGroupProxy m.ClientConfig)
      (pkg.NewConsistencyCheck s.d) t with
  | mk r t' =>
    rw [hr] at h
    cases r with
    | none => exact h
    | some e =>
      by_cases hc : (e.is404 && !t'.d.IsNewResource) = true
      · simp only [hc, if_true]; exact h
      · simp only [hc]; exact h

theorem countP_createRoutingSkillGroupsMemberDivisions (p : Call → Bool)
    (hget : ∀ id, p (.getRoutingSkillGroupsById id) = false)
    (hpost : ∀ id reqBody, p (.createRoutingSkillGroupsMemberDivision id reqBody) = false)
    (pkg : Package) (fuel attempts : Nat) (m : ProviderMeta)
    (skillGroupDivisionIds : List String) (create : Bool) (s : Run)
    (r : Option Diagnostics × Run)
    (h : createRoutingSkillGroupsMemberDivisions pkg fuel attempts m skillGroupDivisionIds
      create s = some r) :
    r.2.calls.countP p = s.calls.countP p := by
  unfold createRoutingSkillGroupsMemberDivisions at h
  cases hm : s.d.member_division_ids with
  | none =>
    simp only [hm, Option.some.injEq] at h
    rw [← h]; exact countP_readSkillGroups p hget pkg attempts m s
  | some ids =>
    simp only [hm] at h
    cases hl : createListsForSkillgroupsMembersDivisionsPost pkg.resourceName fuel ids
        skillGroupDivisionIds create m with
    | none => rw [hl] at h; simp at h
    | some t =>
      obtain ⟨toAdd, toRemove0, err⟩ := t
      rw [hl] at h
      cases err with
      | some e =>
        simp only [Option.some.injEq] at h
        rw [← h]
      | none =>
        simp only at h
        cases hrm : pkg.removeSkillGroupDivisionID s.d toRemove0 with
        | mk toRemove err' =>
          rw [hrm] at h
          cases err' with
          | some e =>
            simp only [Option.some.injEq] at h
            rw [← h]
          | none =>
            simp only at h
            by_cases hg : (decide (toAdd.length < 1) && decide (toRemove.length < 1)) = true
            · simp only [hg, if_true, Option.some.injEq] at h
              rw [← h]; exact countP_readSkillGroups p hget pkg attempts m s
            · rw [if_neg hg] at h
              cases hp : (getRoutingSkillGroupProxy
                  m.ClientConfig).createRoutingSkillGroupsMemberDivision s.calls s.d.Id
                  { RemoveDivisionIds := if toRemove.length > 0 then some toRemove else none,
                    AddDivisionIds := if toAdd.length > 0 then some toAdd else none } with
              | mk resp e =>
                rw [hp] at h
                cases e with
                | none =>
                  simp only [Option.some.injEq] at h
                  rw [← h]
                  exact countP_append_one p _ _ (hpost _ _)
                | some e =>
                  simp only [Option.some.injEq] at h
                  rw [← h]
                  exact countP_append_one p _ _ (hpost _ _)

theorem foldl_append_singleton (l : List String) :
    ∀ acc : List String, l.foldl (fun ids id => ids ++ [id]) acc = acc ++ l := by
  induction l with
  | nil => intro acc; simp
  | cons a t ih => intro acc; rw [List.foldl_cons, ih]; simp

theorem readSkillGroupMemberDivisions_ok (pkg : Package) (m : ProviderMeta) (s : Run)
    (divisions : List String) (resp : Option APIResponse)
    (h : (getRoutingSkillGroupProxy m.ClientConfig).getRoutingSkillGroupsMemberDivison s.calls
      s.d.Id = .ok divisions resp) :
    readSkillGroupMemberDivisions pkg m s
      = (divisions, none,
          { s with calls := s.calls ++ [.getRoutingSkillGroupsMemberDivison s.d.Id] }) := by
  simp only [readSkillGroupMemberDivisions, h, foldl_append_singleton, List.nil_append]

theorem readSkillGroupMemberDivisions_fail (pkg : Package) (m : ProviderMeta) (s : Run)
    (resp : Option APIResponse) (err : String)
    (h : (getRoutingSkillGroupProxy m.ClientConfig).getRoutingSkillGroupsMemberDivison s.calls
      s.d.Id = .fail resp err) :
    readSkillGroupMemberDivisions pkg m s
      = ([], some (.BuildAPIDiagnosticError pkg.resourceName
          ("Failed to  get member divisions for skill group " ++ s.d.Id ++ " error: " ++ err)
          resp),
          { s with calls := s.calls ++ [.getRoutingSkillGroupsMemberDivison s.d.Id] }) := by
  simp only [readSkillGroupMemberDivisions, h]

theorem createSkillGroups_of_created (pkg : Package)
    (Unmarshal : String → Except String (Option (List Skillgroupcondition))) (addr : String)
    (fuel attempts : Nat) (m : ProviderMeta) (s : Run)
    (createRequest : Skillgroupwithmemberdivisions) (groupId : String)
    (resp : Option APIResponse)
    (hreq : createRequestOf pkg Unmarshal addr s.d = .ok createRequest)
    (hcreate : (getRoutingSkillGroupProxy m.ClientConfig).createRoutingSkillGroups s.calls
      createRequest = .ok groupId resp) :
    createSkillGroups pkg Unmarshal addr fuel attempts m s
      = match readSkillGroupMemberDivisions pkg m
          { d := { s.d with Id := groupId },
            calls := s.calls ++ [.createRoutingSkillGroups createRequest] } with
        | (_, some diagErr, s1) => some (some diagErr, s1)
        | (apiSkillGroupMemberDivisionIds, none, s1) =>
          match createRoutingSkillGroupsMemberDivisions pkg fuel attempts m
              apiSkillGroupMemberDivisionIds true s1 with
          | none => none
          | some (some diagErr, s2) => some (some diagErr, s2)
          | some (none, s2) => some (readSkillGroups pkg attempts m s2) := by
  simp only [createSkillGroups, hreq, hcreate]

/-- C13: `createSkillGroups` issues the remote create call at most once, whatever happens
after it. When that call fails, the handler returns its error, leaves the resource data (its ID
included) as it was and issues no other call. When it succeeds, the ID of the resource is the ID
of the returned group from then on: the member divisions are read for that ID, then reconciled
with the create flag set, and the handler ends by returning what `readSkillGroups` returns. -/
theorem createSkillGroups_create_once (pkg : Package)
    (Unmarshal : String → Except String (Option (List Skillgroupcondition))) (addr : String)
    (fuel attempts : Nat) (m : ProviderMeta) (s : Run) :
    (∀ r, createSkillGroups pkg Unmarshal addr fuel attempts m s = some r →
      createCalls r.2.calls ≤ createCalls s.calls + 1) ∧
    (∀ createRequest resp err, createRequestOf pkg Unmarshal addr s.d = .ok createRequest →
      (getRoutingSkillGroupProxy m.ClientConfig).createRoutingSkillGroups s.calls createRequest
        = .fail resp err →
      createSkillGroups pkg Unmarshal addr fuel attempts m s
        = some (some (.BuildAPIDiagnosticError pkg.resourceName
            ("Failed to create/update skill groups " ++ addr ++ " error: " ++ err) resp),
            { d := s.d, calls := s.calls ++ [.createRoutingSkillGroups createRequest] })) ∧
    (∀ createRequest groupId resp,
      createRequestOf pkg Unmarshal addr s.d = .ok createRequest →
      (getRoutingSkillGroupProxy m.ClientConfig).createRoutingSkillGroups s.calls createRequest
        = .ok groupId resp →
      (∀ resp' err,
        (getRoutingSkillGroupProxy m.ClientConfig).getRoutingSkillGroupsMemberDivison
          (s.calls ++ [.createRoutingSkillGroups createRequest]) groupId = .fail resp' err →
        createSkillGroups pkg Unmarshal addr fuel attempts m s
          = some (some (.BuildAPIDiagnosticError pkg.resourceName
              ("Failed to  get member divisions for skill group " ++ groupId ++ " error: " ++
                err) resp'),
              { d := { s.d with Id := groupId },
                calls := s.calls ++ [.createRoutingSkillGroups createRequest] ++
                  [.getRoutingSkillGroupsMemberDivison groupId] })) ∧
      (∀ divisions resp',
        (getRoutingSkillGroupProxy m.ClientConfig).getRoutingSkillGroupsMemberDivison
          (s.calls ++ [.createRoutingSkillGroups createRequest]) groupId
          = .ok divisions resp' →
        createSkillGroups pkg Unmarshal addr fuel attempts m s
          = match createRoutingSkillGroupsMemberDivisions pkg fuel attempts m divisions true
              { d := { s.d with Id := groupId },
                calls := s.calls ++ [.createRoutingSkillGroups createRequest] ++
                  [.getRoutingSkillGroupsMemberDivison groupId] } with
            | none => none
            | some (some diagErr, s2) => some (some diagErr, s2)
            | some (none, s2) => some (readSkillGroups pkg attempts m s2))) := by
  have hfail : ∀ createRequest resp err,
      createRequestOf pkg Unmarshal addr s.d = .ok createRequest →
      (getRoutingSkillGroupProxy m.ClientConfig).createRoutingSkillGroups s.calls createRequest
        = .fail resp err →
      createSkillGroups pkg Unmarshal addr fuel attempts m s
        = some (some (.BuildAPIDiagnosticError pkg.resourceName
            ("Failed to create/update skill groups " ++ addr ++ " error: " ++ err) resp),
            { d := s.d, calls := s.calls ++ [.createRoutingSkillGroups createRequest] }) := by
    intro createRequest resp err hreq hcreate
    simp only [createSkillGroups, hreq, hcreate]
  have hmdfail : ∀ createRequest groupId resp,
      createRequestOf pkg Unmarshal addr s.d = .ok createRequest →
      (getRoutingSkillGroupProxy m.ClientConfig).createRoutingSkillGroups s.calls createRequest
        = .ok groupId resp →
      ∀ resp' err,
        (getRoutingSkillGroupProxy m.ClientConfig).getRoutingSkillGroupsMemberDivison
          (s.calls ++ [.createRoutingSkillGroups createRequest]) groupId = .fail resp' err →
        createSkillGroups pkg Unmarshal addr fuel attempts m s
          = some (some (.BuildAPIDiagnosticError pkg.resourceName
              ("Failed to  get member divisions for skill group " ++ groupId ++ " error: " ++
                err) resp'),
              { d := { s.d with Id := groupId },
                calls := s.calls ++ [.createRoutingSkillGroups createRequest] ++
                  [.getRoutingSkillGroupsMemberDivison groupId] }) := by
    intro createRequest groupId resp hreq hcreate resp' err hmd
    rw [createSkillGroups_of_created pkg Unmarshal addr fuel attempts m s createRequest groupId
      resp hreq hcreate, readSkillGroupMemberDivisions_fail pkg m _ resp' err hmd]
  have hmdok : ∀ createRequest groupId resp,
      createRequestOf pkg Unmarshal addr s.d = .ok createRequest →
      (getRoutingSkillGroupProxy m.ClientConfig).createRoutingSkillGroups s.calls createRequest
        = .ok groupId resp →
      ∀ divisions resp',
        (getRoutingSkillGroupProxy m.ClientConfig).getRoutingSkillGroupsMemberDivison
          (s.calls ++ [.createRoutingSkillGroups createRequest]) groupId
          = .ok divisions resp' →
        createSkillGroups pkg Unmarshal addr fuel attempts m s
          = match createRoutingSkillGroupsMemberDivisions pkg fuel attempts m divisions true
              { d := { s.d with Id := groupId },
                calls := s.calls ++ [.createRoutingSkillGroups createRequest] ++
                  [.getRoutingSkillGroupsMemberDivison groupId] } with
            | none => none
            | some (some diagErr, s2) => some (some diagErr, s2)
            | some (none, s2) => some (readSkillGroups pkg attempts m s2) := by
    intro createRequest groupId resp hreq hcreate divisions resp' hmd
    rw [createSkillGroups_of_created pkg Unmarshal addr fuel attempts m s createRequest groupId
      resp hreq hcreate, readSkillGroupMemberDivisions_ok pkg m _ divisions resp' hmd]
  refine ⟨?_, hfail, fun createRequest groupId resp hreq hcreate =>
    ⟨hmdfail createRequest groupId resp hreq hcreate,
     hmdok createRequest groupId resp hreq hcreate⟩⟩
  intro r hr
  have hget : ∀ id, (fun c : Call => c matches .createRoutingSkillGroups _)
      (.getRoutingSkillGroupsById id) = false := fun _ => rfl
  have hpost : ∀ id reqBody, (fun c : Call => c matches .createRoutingSkillGroups _)
      (.createRoutingSkillGroupsMemberDivision id reqBody) = false := fun _ _ => rfl
  have hone : ∀ (calls : List Call) (createRequest : Skillgroupwithmemberdivisions),
      createCalls (calls ++ [.createRoutingSkillGroups createRequest])
        = createCalls calls + 1 := by
    intro calls createRequest
    simp [createCalls, List.countP_append]
  have hmd : ∀ (calls : List Call) (id : String),
      createCalls (calls ++ [.getRoutingSkillGroupsMemberDivison id]) = createCalls calls := by
    intro calls id
    simp [createCalls, List.countP_append]
  cases hreq : createRequestOf pkg Unmarshal addr s.d with
  | error e =>
    simp only [createSkillGroups, hreq, Option.some.injEq] at hr
    rw [← hr]
    exact Nat.le_succ _
  | ok createRequest =>
    cases hcreate : (getRoutingSkillGroupProxy m.ClientConfig).createRoutingSkillGroups
        s.calls createRequest with
    | fail resp err =>
      rw [hfail createRequest resp err hreq hcreate, Option.some.injEq] at hr
      rw [← hr]
      exact Nat.le_of_eq (hone _ _)
    | ok groupId resp =>
      cases hmdr : (getRoutingSkillGroupProxy
          m.ClientConfig).getRoutingSkillGroupsMemberDivison
          (s.calls ++ [.createRoutingSkillGroups createRequest]) groupId with
      | fail resp' err =>
        rw [hmdfail createRequest groupId resp hreq hcreate resp' err hmdr,
          Option.some.injEq] at hr
        rw [← hr]
        exact Nat.le_of_eq (by rw [hmd, hone])
      | ok divisions resp' =>
        rw [hmdok createRequest groupId resp hreq hcreate divisions resp' hmdr] at hr
        cases hrec : createRoutingSkillGroupsMemberDivisions pkg fuel attempts m divisions true
            { d := { s.d with Id := groupId },
              calls := s.calls ++ [.createRoutingSkillGroups createRequest] ++
                [.getRoutingSkillGroupsMemberDivison groupId] } with
        | none => rw [hrec] at hr; simp at hr
        | some t =>
          have hcount := countP_createRoutingSkillGroupsMemberDivisions
            (fun c : Call => c matches .createRoutingSkillGroups _) hget hpost pkg fuel
            attempts m divisions true _ t hrec
          rw [hrec] at hr
          obtain ⟨e, s2⟩ := t
          cases e with
          | some e =>
            simp only [Option.some.injEq] at hr
            rw [← hr]
            exact Nat.le_of_eq (by
              show createCalls s2.calls = _
              unfold createCalls
              rw [hcount]
              exact (hmd _ _).trans (hone _ _))
          | none =>
            simp only [Option.some.injEq] at hr
            rw [← hr]
            exact Nat.le_of_eq (by
              unfold createCalls
              rw [countP_readSkillGroups (fun c : Call => c matches .createRoutingSkillGroups _) hget
                pkg attempts m s2, hcount]
              exact (hmd _ _).trans (hone _ _))

theorem createSkillGroups_create_once_witness :
    createSkillGroups samplePackage sampleUnmarshal "0xc000012345" 2 3 failingMeta
        { d := sampleNewData, calls := [] }
      = some (some (.BuildAPIDiagnosticError samplePackage.resourceName
          ("Failed to create/update skill groups " ++ "0xc000012345" ++ " error: " ++
            "server error") (some { StatusCode := 500 })),
          { d := sampleNewData, calls := [] ++ [.createRoutingSkillGroups sampleCreateRequest] }) ∧
    createSkillGroups samplePackage sampleUnmarshal "0xc000012345" 2 3 sampleMeta
        { d := sampleNewData, calls := [] }
      = some (none,
          { d := sampleCreatedData,
            calls := [.createRoutingSkillGroups sampleCreateRequest,
              .getRoutingSkillGroupsMemberDivison "sg-1",
              .createRoutingSkillGroupsMemberDivision "sg-1"
                { RemoveDivisionIds := none, AddDivisionIds := some ["d2"] },
              .getRoutingSkillGroupsById "sg-1"] }) :=
  ⟨(createSkillGroups_create_once samplePackage sampleUnmarshal "0xc000012345" 2 3 failingMeta
      { d := sampleNewData, calls := [] }).2.1
      sampleCreateRequest (some { StatusCode := 500 }) "server error" rfl rfl,
   ((createSkillGroups_create_once samplePackage sampleUnmarshal "0xc000012345" 2 3 sampleMeta
      { d := sampleNewData, calls := [] }).2.2
      sampleCreateRequest "sg-1" (some { StatusCode := 200 }) rfl rfl).2 ["d1"]
      (some { StatusCode := 200 }) rfl |>.trans (by decide)⟩

/-- C14: in `createSkillGroups` and in `updateSkillGroups`, a `skill_conditions` text that is
not empty and that `json.Unmarshal` rejects makes the handler return the diagnostics of that
error with the state as it was: no call is issued. With the empty text the request carries no
skill conditions, whatever `json.Unmarshal` would do, and the handler does not depend on
`json.Unmarshal`. -/
theorem skill_conditions_validated (pkg : Package)
    (Unmarshal : String → Except String (Option (List Skillgroupcondition))) (addr : String)
    (fuel attempts : Nat) (m : ProviderMeta) (s : Run) :
    (∀ err, s.d.skill_conditions ≠ "" → Unmarshal s.d.skill_conditions = .error err →
      createSkillGroups pkg Unmarshal addr fuel attempts m s
        = some (some (.BuildDiagnosticError pkg.resourceName
            ("Failed to unmarshal the JSON payload while creating/updating the skills group " ++
              addr) err), s) ∧
      updateSkillGroups pkg Unmarshal addr fuel attempts m s
        = some (some (.BuildDiagnosticError pkg.resourceName
            ("Failed to unmarshal the JSON payload while creating/updating the skills group " ++
              addr) err), s)) ∧
    (s.d.skill_conditions = "" →
      (∃ createRequest, createRequestOf pkg Unmarshal addr s.d = .ok createRequest ∧
        createRequest.SkillConditions = none) ∧
      (∃ updateRequest, updateRequestOf pkg Unmarshal addr s.d = .ok updateRequest ∧
        updateRequest.SkillConditions = none) ∧
      ∀ Unmarshal' : String → Except String (Option (List Skillgroupcondition)),
        createSkillGroups pkg Unmarshal' addr fuel attempts m s
          = createSkillGroups pkg Unmarshal addr fuel attempts m s ∧
        updateSkillGroups pkg Unmarshal' addr fuel attempts m s
          = updateSkillGroups pkg Unmarshal addr fuel attempts m s) := by
  constructor
  · intro err hne herr
    have hc : createRequestOf pkg Unmarshal addr s.d
        = .error (.BuildDiagnosticError pkg.resourceName
            ("Failed to unmarshal the JSON payload while creating/updating the skills group " ++
              addr) err) := by
      simp [createRequestOf, hne, herr]
    have hu : updateRequestOf pkg Unmarshal addr s.d
        = .error (.BuildDiagnosticError pkg.resourceName
            ("Failed to unmarshal the JSON payload while creating/updating the skills group " ++
              addr) err) := by
      simp [updateRequestOf, hne, herr]
    constructor
    · simp only [createSkillGroups, hc]
    · simp only [updateSkillGroups, hu]
  · intro hempty
    have hc : ∀ U : String → Except String (Option (List Skillgroupcondition)),
        createRequestOf pkg U addr s.d
          = .ok (if s.d.division_id != "" then
              { Name := s.d.name, Description := s.d.description,
                Division := some s.d.division_id, SkillConditions := none }
            else
              { Name := s.d.name, Description := s.d.description, Division := none,
                SkillConditions := none }) := by
      intro U
      simp only [createRequestOf, hempty, bne_self_eq_false, Bool.false_eq_true, if_false]
    have hu : ∀ U : String → Except String (Option (List Skillgroupcondition)),
        updateRequestOf pkg U addr s.d
          = .ok (if s.d.division_id != "" then
              { Name := s.d.name, Description := s.d.description,
                Division := some s.d.division_id, SkillConditions := none }
            else
              { Name := s.d.name, Description := s.d.description, Division := none,
                SkillConditions := none }) := by
      intro U
      simp only [updateRequestOf, hempty, bne_self_eq_false, Bool.false_eq_true, if_false]
    refine ⟨⟨_, hc Unmarshal, ?_⟩, ⟨_, hu Unmarshal, ?_⟩, fun U' => ⟨?_, ?_⟩⟩
    · split <;> rfl
    · split <;> rfl
    · simp only [createSkillGroups, hc U', hc Unmarshal]
    · simp only [updateSkillGroups, hu U', hu Unmarshal]

theorem skill_conditions_validated_witness :
    createSkillGroups samplePackage sampleUnmarshal "0xc000012345" 2 3 sampleMeta
        { d := { sampleData with skill_conditions := "not json" }, calls := [] }
      = some (some (.BuildDiagnosticError samplePackage.resourceName
          ("Failed to unmarshal the JSON payload while creating/updating the skills group " ++
            "0xc000012345") "invalid character"),
          { d := { sampleData with skill_conditions := "not json" }, calls := [] }) ∧
    updateSkillGroups samplePackage sampleUnmarshal "0xc000012345" 2 3 sampleMeta
        { d := { sampleData with skill_conditions := "not json" }, calls := [] }
      = some (some (.BuildDiagnosticError samplePackage.resourceName
          ("Failed to unmarshal the JSON payload while creating/updating the skills group " ++
            "0xc000012345") "invalid character"),
          { d := { sampleData with skill_conditions := "not json" }, calls := [] }) :=
  (skill_conditions_validated samplePackage sampleUnmarshal "0xc000012345" 2 3 sampleMeta
    { d := { sampleData with skill_conditions := "not json" }, calls := [] }).1
    "invalid character" (by decide) rfl

/-! ### What a read step writes -/

/-- The read step after a get-by-id call that succeeded, field by field. -/
theorem readSkillGroupsStep_ok (pkg : Package) (proxy : RoutingSkillGroupProxy)
    (cc : ResourceData → Option RetryError) (s : Run) (skillGroup : Skillgroup)
    (resp : Option APIResponse)
    (hget : proxy.getRoutingSkillGroupsById s.calls s.d.Id = .ok skillGroup resp) :
    (readSkillGroupsStep pkg proxy cc s).2
      = { d := { Id := s.d.Id, name := skillGroup.Name,
                 description := SetNillableValue skillGroup.Description,
                 division_id := SetNillableValue skillGroup.DivisionId,
                 skill_conditions := skillGroup.SkillConditions,
                 member_division_ids := s.d.member_division_ids,
                 IsNewResource := s.d.IsNewResource },
          calls := s.calls ++ [.getRoutingSkillGroupsById s.d.Id] } := by
  obtain ⟨d, calls⟩ := s
  obtain ⟨id, name, description, division, conditions, members, isNew⟩ := d
  simp only at hget
  by_cases hsc : skillGroup.SkillConditions = ""
  · cases members <;> simp [readSkillGroupsStep, hget, hsc]
  · cases members <;> simp [readSkillGroupsStep, hget, hsc]

/-- C21: a read step of `readSkillGroups` whose get-by-id call succeeds leaves
`member_division_ids` as it was in the resource data, whatever the remote system returned, so
two such steps on the same resource data write the same value for it; `name`, `description` and
`division_id` are written from the skill group that the remote system returned. -/
theorem readSkillGroupsStep_keeps_member_division_ids (pkg : Package)
    (proxy : RoutingSkillGroupProxy) (cc : ResourceData → Option RetryError) (s : Run)
    (skillGroup : Skillgroup) (resp : Option APIResponse)
    (hget : proxy.getRoutingSkillGroupsById s.calls s.d.Id = .ok skillGroup resp) :
    (readSkillGroupsStep pkg proxy cc s).2.d.member_division_ids = s.d.member_division_ids ∧
    (∀ (proxy' : RoutingSkillGroupProxy) (cc' : ResourceData → Option RetryError)
        (skillGroup' : Skillgroup) (resp' : Option APIResponse),
      proxy'.getRoutingSkillGroupsById s.calls s.d.Id = .ok skillGroup' resp' →
      (readSkillGroupsStep pkg proxy' cc' s).2.d.member_division_ids
        = (readSkillGroupsStep pkg proxy cc s).2.d.member_division_ids) ∧
    (readSkillGroupsStep pkg proxy cc s).2.d.name = skillGroup.Name ∧
    (readSkillGroupsStep pkg proxy cc s).2.d.description
      = SetNillableValue skillGroup.Description ∧
    (readSkillGroupsStep pkg proxy cc s).2.d.division_id
      = SetNillableValue skillGroup.DivisionId ∧
    (∀ v, skillGroup.Description = some v →
      (readSkillGroupsStep pkg proxy cc s).2.d.description = v) ∧
    (∀ v, skillGroup.DivisionId = some v →
      (readSkillGroupsStep pkg proxy cc s).2.d.division_id = v) := by
  have hstep := readSkillGroupsStep_ok pkg proxy cc s skillGroup resp hget
  refine ⟨by rw [hstep], ?_, by rw [hstep], by rw [hstep], by rw [hstep], ?_, ?_⟩
  · intro proxy' cc' skillGroup' resp' h
    rw [hstep, readSkillGroupsStep_ok pkg proxy' cc' s skillGroup' resp' h]
  · intro v hv
    rw [hstep, hv]; rfl
  · intro v hv
    rw [hstep, hv]; rfl

theorem readSkillGroupsStep_keeps_member_division_ids_witness :
    (readSkillGroupsStep samplePackage goneAfterTwoReads (fun _ => none)
        { d := sampleNewData, calls := [] }).2.d.member_division_ids = some ["d2"] ∧
    (readSkillGroupsStep samplePackage goneAfterTwoReads (fun _ => none)
        { d := sampleNewData, calls := [] }).2.d.name = "Series6" ∧
    (readSkillGroupsStep samplePackage goneAfterTwoReads (fun _ => none)
        { d := sampleNewData, calls := [] }).2.d.description = "Licensed agents" ∧
    (readSkillGroupsStep samplePackage goneAfterTwoReads (fun _ => none)
        { d := sampleNewData, calls := [] }).2.d.division_id = "d1" :=
  have h := readSkillGroupsStep_keeps_member_division_ids samplePackage goneAfterTwoReads
    (fun _ => none) { d := sampleNewData, calls := [] } sampleSkillGroup
    (some { StatusCode := 200 }) rfl
  ⟨h.1, h.2.2.1, h.2.2.2.2.2.1 _ rfl, h.2.2.2.2.2.2 _ rfl⟩

end RoutingSkillGroup

namespace Provider

open RoutingSkillGroup (RetryCause RetryError RetryableError NonRetryableError Diagnostics)

/-! ### The registry -/

/-- C16: for a platform that is there, `getRegistry` with version `0.1.0` returns `genesys.com`,
whatever registry the platform reports. -/
theorem getRegistry_dev_version (platform : Platform) :
    getRegistry (some platform) "0.1.0" = "genesys.com" := by
  simp [getRegistry]

/-- C17: for a platform that is there and a version other than `0.1.0`, `getRegistry` returns
the registry the platform reports when that is not empty, and `registry.terraform.io` when it is
the empty string. -/
theorem getRegistry_release_version (platform : Platform) (version : String)
    (hversion : version ≠ "0.1.0") :
    (platform.GetProviderRegistry ≠ "" →
      getRegistry (some platform) version = platform.GetProviderRegistry) ∧
    (platform.GetProviderRegistry = "" →
      getRegistry (some platform) version = "registry.terraform.io") := by
  constructor
  · intro h
    simp [getRegistry, hversion, h]
  · intro h
    simp [getRegistry, hversion, h]

theorem getRegistry_release_version_witness :
    getRegistry (some { GetProviderRegistry := "registry.opentofu.org" }) "1.52.0"
      = "registry.opentofu.org" ∧
    getRegistry (some { GetProviderRegistry := "" }) "1.52.0" = "registry.terraform.io" :=
  ⟨(getRegistry_release_version { GetProviderRegistry := "registry.opentofu.org" } "1.52.0"
      (by decide)).1 (by decide),
   (getRegistry_release_version { GetProviderRegistry := "" } "1.52.0" (by decide)).2 rfl⟩

/-! ### The authorization step -/

/-- C18: the authorization step of `InitClientConfig` reports success when the authorization
returns no error, a retryable error exactly when the text of the authorization error contains
the rate-limit text, and a non-retryable error for every other authorization error; the step of
`AuthorizeSdk` is the same step on the credentials of the environment. -/
theorem authorize_step_classifies
    (AuthorizeClientCredentials : String → String → Option String)
    (oauthclientID oauthclientSecret : String) (Getenv : String → String) :
    (AuthorizeClientCredentials oauthclientID oauthclientSecret = none →
      initClientConfigStep AuthorizeClientCredentials oauthclientID oauthclientSecret = none) ∧
    (∀ err, AuthorizeClientCredentials oauthclientID oauthclientSecret = some err →
      stringsContains err rateLimitText = true →
      initClientConfigStep AuthorizeClientCredentials oauthclientID oauthclientSecret
        = some { Err := .errorString
                   ("exhausted retries on Genesys Cloud client credentials. " ++ err),
                 Retryable := true }) ∧
    (∀ err, AuthorizeClientCredentials oauthclientID oauthclientSecret = some err →
      stringsContains err rateLimitText = false →
      initClientConfigStep AuthorizeClientCredentials oauthclientID oauthclientSecret
        = some { Err := .errorString
                   ("failed to authorize Genesys Cloud client credentials: " ++ err),
                 Retryable := false }) ∧
    (∀ e, initClientConfigStep AuthorizeClientCredentials oauthclientID oauthclientSecret
        = some e →
      (e.Retryable = true ↔
        ∃ err, AuthorizeClientCredentials oauthclientID oauthclientSecret = some err ∧
          stringsContains err rateLimitText = true)) ∧
    authorizeSdkStep AuthorizeClientCredentials Getenv
      = initClientConfigStep AuthorizeClientCredentials (Getenv "GENESYSCLOUD_OAUTHCLIENT_ID")
          (Getenv "GENESYSCLOUD_OAUTHCLIENT_SECRET") := by
  refine ⟨?_, ?_, ?_, ?_, rfl⟩
  · intro h
    simp [initClientConfigStep, h]
  · intro err h hc
    simp [initClientConfigStep, h, hc, RetryableError]
  · intro err h hc
    simp [initClientConfigStep, h, hc, NonRetryableError]
  · intro e he
    unfold initClientConfigStep at he
    cases h : AuthorizeClientCredentials oauthclientID oauthclientSecret with
    | none => rw [h] at he; simp at he
    | some err =>
      rw [h] at he
      by_cases hc : stringsContains err rateLimitText = true
      · simp [hc, RetryableError] at he
        subst he
        simp [hc]
      · simp [hc, NonRetryableError] at he
        subst he
        simp [hc]

theorem authorize_step_classifies_witness :
    initClientConfigStep sampleAuthorize "client" "secret" = none ∧
    initClientConfigStep sampleAuthorize "busy" "secret"
      = some { Err := .errorString
                 ("exhausted retries on Genesys Cloud client credentials. " ++
                  "Auth Error: 400 - invalid_request (rate limit exceeded; retry in 3 seconds)"),
               Retryable := true } ∧
    initClientConfigStep sampleAuthorize "client" "wrong"
      = some { Err := .errorString
                 ("failed to authorize Genesys Cloud client credentials: " ++
                  "Auth Error: 401 - invalid_client"),
               Retryable := false } :=
  ⟨(authorize_step_classifies sampleAuthorize "client" "secret" (fun _ => "")).1 (by decide),
   (authorize_step_classifies sampleAuthorize "busy" "secret" (fun _ => "")).2.1 _
      (by decide) (by decide),
   (authorize_step_classifies sampleAuthorize "client" "wrong" (fun _ => "")).2.2.1 _
      (by decide) (by decide)⟩

/-! ### The retry wrapper -/

theorem isTimeout_iff {μ : Type} (lib : Library μ) (err : Option Diagnostics) :
    isTimeout lib err = true ↔
      ∃ e, err = some e ∧ stringsContains (lib.Sprintf e) timeoutText = true := by
  cases err with
  | none => simp [isTimeout]
  | some e => simp [isTimeout]

theorem withRetries_of_not_timeout {μ : Type} (lib : Library μ) (fuel : Nat) (ctx : Context)
    (timeout : Nat) (method : μ) (runs : List (RetryRun μ))
    (h : isTimeout lib (FromErr (lib.RetryContext runs
      { ctx := ctx, timeout := timeout, method := method })) = false) :
    withRetries lib (fuel + 1) ctx timeout method runs
      = some (FromErr (lib.RetryContext runs
          { ctx := ctx, timeout := timeout, method := method }),
          runs ++ [{ ctx := ctx, timeout := timeout, method := method }]) := by
  rw [withRetries]
  simp [h]

theorem withRetries_of_timeout {μ : Type} (lib : Library μ) (fuel : Nat) (ctx : Context)
    (timeout : Nat) (method : μ) (runs : List (RetryRun μ))
    (h : isTimeout lib (FromErr (lib.RetryContext runs
      { ctx := ctx, timeout := timeout, method := method })) = true) :
    withRetries lib (fuel + 1) ctx timeout method runs
      = withRetries lib fuel (.backgroundWithTimeout timeout) timeout method
          (runs ++ [{ ctx := ctx, timeout := timeout, method := method }]) := by
  rw [withRetries]
  simp [h]

theorem withRetries_result_not_timeout {μ : Type} (lib : Library μ) (timeout : Nat)
    (method : μ) (fuel : Nat) :
    ∀ (ctx : Context) (runs : List (RetryRun μ)) (d : Option Diagnostics)
      (runs' : List (RetryRun μ)),
      withRetries lib fuel ctx timeout method runs = some (d, runs') →
      isTimeout lib d = false := by
  induction fuel with
  | zero => intro ctx runs d runs' h; simp [withRetries] at h
  | succ n ih =>
    intro ctx runs d runs' h
    by_cases ht : isTimeout lib (FromErr (lib.RetryContext runs
        { ctx := ctx, timeout := timeout, method := method })) = true
    · rw [withRetries_of_timeout lib n ctx timeout method runs ht] at h
      exact ih _ _ _ _ h
    · have ht' := Bool.eq_false_iff.2 ht
      rw [withRetries_of_not_timeout lib n ctx timeout method runs ht'] at h
      simp only [Option.some.injEq, Prod.mk.injEq] at h
      rw [← h.1]
      exact ht'

/-- C11: when the diagnostics of the run of `retry.RetryContext` are nil or their text does not
contain `timeout while waiting for state to become`, `withRetries` returns them unchanged after
that one run; when their text contains it, `withRetries` does not return them but calls itself
with the same method and the same timeout under a context with a fresh deadline; and whatever
`withRetries` returns, it is nil or its text does not contain that text. -/
theorem withRetries_outcome {μ : Type} (lib : Library μ) (fuel : Nat) (ctx : Context)
    (timeout : Nat) (method : μ) (runs : List (RetryRun μ)) :
    (∀ err, err = FromErr (lib.RetryContext runs
        { ctx := ctx, timeout := timeout, method := method }) →
      (err = none ∨ ∃ e, err = some e ∧ stringsContains (lib.Sprintf e) timeoutText = false) →
      withRetries lib (fuel + 1) ctx timeout method runs
        = some (err, runs ++ [{ ctx := ctx, timeout := timeout, method := method }])) ∧
    (∀ e, FromErr (lib.RetryContext runs
        { ctx := ctx, timeout := timeout, method := method }) = some e →
      stringsContains (lib.Sprintf e) timeoutText = true →
      withRetries lib (fuel + 1) ctx timeout method runs
        = withRetries lib fuel (.backgroundWithTimeout timeout) timeout method
            (runs ++ [{ ctx := ctx, timeout := timeout, method := method }])) ∧
    (∀ d runs', withRetries lib fuel ctx timeout method runs = some (d, runs') →
      d = none ∨ ∃ e, d = some e ∧ stringsContains (lib.Sprintf e) timeoutText = false) := by
  refine ⟨?_, ?_, ?_⟩
  · intro err herr hno
    subst herr
    apply withRetries_of_not_timeout
    rcases hno with h | ⟨e, h, hc⟩
    · rw [h]; rfl
    · rw [h]; simpa [isTimeout] using hc
  · intro e he hc
    apply withRetries_of_timeout
    rw [he]
    simpa [isTimeout] using hc
  · intro d runs' h
    have hd := withRetries_result_not_timeout lib timeout method fuel ctx runs d runs' h
    cases d with
    | none => exact Or.inl rfl
    | some e => exact Or.inr ⟨e, rfl, by simpa [isTimeout] using hd⟩

set_option maxRecDepth 20000 in
theorem withRetries_outcome_witness :
    withRetries timesOutTwice 1 .caller 60 "authorize"
        [{ ctx := .caller, timeout := 60, method := "authorize" },
         { ctx := .backgroundWithTimeout 60, timeout := 60, method := "authorize" }]
      = some (some (.FromErr (.errorString
            "failed to authorize Genesys Cloud client credentials: denied")),
          [{ ctx := .caller, timeout := 60, method := "authorize" },
           { ctx := .backgroundWithTimeout 60, timeout := 60, method := "authorize" },
           { ctx := .caller, timeout := 60, method := "authorize" }]) ∧
    withRetries timesOutTwice 3 .caller 60 "authorize" []
      = withRetries timesOutTwice 2 (.backgroundWithTimeout 60) 60 "authorize"
          [{ ctx := .caller, timeout := 60, method := "authorize" }] :=
  ⟨(withRetries_outcome timesOutTwice 0 .caller 60 "authorize"
      [{ ctx := .caller, timeout := 60, method := "authorize" },
       { ctx := .backgroundWithTimeout 60, timeout := 60, method := "authorize" }]).1 _ rfl
      (Or.inr ⟨_, rfl, by decide⟩),
   (withRetries_outcome timesOutTwice 2 .caller 60 "authorize" []).2.1 _ rfl (by decide)⟩

theorem restartRuns_succ_cons {μ : Type} (ctx : Context) (timeout : Nat) (method : μ)
    (n : Nat) :
    restartRuns ctx timeout method (n + 1)
      = { ctx := ctx, timeout := timeout, method := method } ::
          List.replicate n
            { ctx := .backgroundWithTimeout timeout, timeout := timeout, method := method } :=
  rfl

theorem restartRuns_background {μ : Type} (timeout : Nat) (method : μ) (i : Nat) :
    restartRuns (.backgroundWithTimeout timeout) timeout method i
      = List.replicate i
          { ctx := .backgroundWithTimeout timeout, timeout := timeout, method := method } := by
  cases i with
  | zero => rfl
  | succ k => rw [restartRuns_succ_cons, List.replicate_succ]

theorem nthRun_zero {μ : Type} (ctx : Context) (timeout : Nat) (method : μ) :
    nthRun ctx timeout method 0 = { ctx := ctx, timeout := timeout, method := method } := rfl

theorem nthRun_succ {μ : Type} (ctx : Context) (timeout : Nat) (method : μ) (i : Nat) :
    nthRun ctx timeout method (i + 1)
      = { ctx := .backgroundWithTimeout timeout, timeout := timeout, method := method } := by
  simp [nthRun]

theorem nthRun_background {μ : Type} (timeout : Nat) (method : μ) (i : Nat) :
    nthRun (.backgroundWithTimeout timeout) timeout method i
      = { ctx := .backgroundWithTimeout timeout, timeout := timeout, method := method } := by
  simp [nthRun]

theorem length_restartRuns {μ : Type} (ctx : Context) (timeout : Nat) (method : μ) (n : Nat) :
    (restartRuns ctx timeout method n).length = n := by
  cases n with
  | zero => rfl
  | succ k => rw [restartRuns_succ_cons]; simp

theorem restartRuns_succ {μ : Type} (ctx : Context) (timeout : Nat) (method : μ) (n : Nat) :
    restartRuns ctx timeout method (n + 1)
      = restartRuns ctx timeout method n ++ [nthRun ctx timeout method n] := by
  cases n with
  | zero => rfl
  | succ k =>
    rw [restartRuns_succ_cons, restartRuns_succ_cons, nthRun_succ, List.replicate_succ']
    rfl

/-- While the runs time out, `withRetries` goes on: `n` timed-out runs use up `n` units of fuel
and leave the call where it was, one context later. -/
theorem withRetries_skip {μ : Type} (lib : Library μ) (timeout : Nat) (method : μ) (n : Nat) :
    ∀ (fuel : Nat) (ctx : Context) (runs : List (RetryRun μ)),
      (∀ i, i < n → isTimeout lib (FromErr (lib.RetryContext
        (runs ++ restartRuns ctx timeout method i) (nthRun ctx timeout method i))) = true) →
      withRetries lib (fuel + n) ctx timeout method runs
        = withRetries lib fuel (nthRun ctx timeout method n).ctx timeout method
            (runs ++ restartRuns ctx timeout method n) := by
  induction n with
  | zero => intro fuel ctx runs _; simp [nthRun, restartRuns]
  | succ n ih =>
    intro fuel ctx runs h
    have h0 : isTimeout lib (FromErr (lib.RetryContext runs
        { ctx := ctx, timeout := timeout, method := method })) = true := by
      have := h 0 (Nat.succ_pos n)
      rw [nthRun_zero] at this
      simpa [restartRuns] using this
    have e1 : fuel + (n + 1) = (fuel + n) + 1 := by omega
    rw [e1, withRetries_of_timeout lib _ ctx timeout method runs h0, ih]
    · rw [nthRun_background, nthRun_succ, restartRuns_background, restartRuns_succ_cons]
      simp
    · intro i hi
      have hi' := h (i + 1) (by omega)
      rw [nthRun_succ, restartRuns_succ_cons] at hi'
      rw [nthRun_background, restartRuns_background]
      simpa using hi'

set_option maxRecDepth 20000 in
theorem isTimeout_timesOutAlways (runs : List (RetryRun String)) (run : RetryRun String) :
    isTimeout timesOutAlways (FromErr (timesOutAlways.RetryContext runs run)) = true := by
  show isTimeout timesOutAlways
    (FromErr (some "timeout while waiting for state to become 'success' (timeout: 1m0s)")) = true
  decide

theorem withRetries_timesOutAlways (fuel : Nat) :
    ∀ (ctx : Context) (runs : List (RetryRun String)),
      withRetries timesOutAlways fuel ctx 60 "authorize" runs = none := by
  induction fuel with
  | zero => intro ctx runs; rfl
  | succ n ih =>
    intro ctx runs
    rw [withRetries_of_timeout timesOutAlways n ctx 60 "authorize" runs
      (isTimeout_timesOutAlways _ _)]
    exact ih _ _

set_option maxRecDepth 20000 in
/-- C12, as stated, fails: when the retry machinery times out in its first two runs,
`withRetries` restarts twice and returns after the third run; and when it times out in every run,
`withRetries` never returns, however much fuel it is given. -/
theorem withRetries_restarts_twice :
    withRetries timesOutTwice 3 .caller 60 "authorize" []
      = some (some (.FromErr (.errorString
            "failed to authorize Genesys Cloud client credentials: denied")),
          [{ ctx := .caller, timeout := 60, method := "authorize" },
           { ctx := .backgroundWithTimeout 60, timeout := 60, method := "authorize" },
           { ctx := .backgroundWithTimeout 60, timeout := 60, method := "authorize" }]) ∧
    withRetries timesOutTwice 2 .caller 60 "authorize" [] = none ∧
    (∀ fuel, withRetries timesOutAlways fuel .caller 60 "authorize" [] = none) :=
  ⟨by decide, by decide, fun fuel => withRetries_timesOutAlways fuel _ _⟩

/-- C12, amended: `withRetries` restarts once for every run in a row that ends with the timeout
text, without a bound: when its first `n` runs end with it and run `n + 1` does not, it returns
the diagnostics of run `n + 1` after `n` restarts, each with the same method and timeout under a
fresh deadline. -/
theorem withRetries_restarts {μ : Type} (lib : Library μ) (ctx : Context) (timeout : Nat)
    (method : μ) (n fuel : Nat) (hfuel : n < fuel)
    (htimeouts : ∀ i, i < n → isTimeout lib (FromErr (lib.RetryContext
      (restartRuns ctx timeout method i) (nthRun ctx timeout method i))) = true)
    (hlast : isTimeout lib (FromErr (lib.RetryContext
      (restartRuns ctx timeout method n) (nthRun ctx timeout method n))) = false) :
    withRetries lib fuel ctx timeout method []
      = some (FromErr (lib.RetryContext (restartRuns ctx timeout method n)
          (nthRun ctx timeout method n)), restartRuns ctx timeout method (n + 1)) ∧
    (restartRuns ctx timeout method (n + 1)).length = n + 1 := by
  refine ⟨?_, length_restartRuns ctx timeout method (n + 1)⟩
  obtain ⟨f, rfl⟩ : ∃ f, fuel = (f + 1) + n := ⟨fuel - n - 1, by omega⟩
  have hlast' : isTimeout lib (FromErr (lib.RetryContext
      ([] ++ restartRuns ctx timeout method n)
      { ctx := (nthRun ctx timeout method n).ctx, timeout := timeout, method := method }))
      = false := hlast
  rw [withRetries_skip lib timeout method n (f + 1) ctx [] (by simpa using htimeouts),
    withRetries_of_not_timeout lib f _ timeout method _ hlast', restartRuns_succ]
  rfl

set_option maxRecDepth 20000 in
theorem withRetries_restarts_witness :
    withRetries timesOutTwice 5 .caller 60 "authorize" []
      = some (FromErr (timesOutTwice.RetryContext (restartRuns .caller 60 "authorize" 2)
          (nthRun .caller 60 "authorize" 2)), restartRuns .caller 60 "authorize" (2 + 1)) ∧
    (restartRuns Context.caller 60 "authorize" (2 + 1)).length = 2 + 1 :=
  withRetries_restarts timesOutTwice .caller 60 "authorize" 2 5 (by decide)
    (by intro i hi; interval_cases i <;> decide) (by decide)

/-! ### The maps of the provider -/

theorem foldl_set_eq_append {ρ : Type} (l : ResourceMap ρ) :
    ∀ acc : ResourceMap ρ, ((acc ++ l).map Prod.fst).Nodup →
      l.foldl (fun a e => a.set e.1 e.2) acc = acc ++ l := by
  induction l with
  | nil => intro acc _; simp
  | cons e t ih =>
    intro acc hnd
    have hfresh : ∀ x ∈ acc, x.1 ≠ e.1 := by
      intro x hx hxe
      rw [List.map_append, List.map_cons, List.nodup_append] at hnd
      exact hnd.2.2 (List.mem_map_of_mem Prod.fst hx) (by rw [hxe]; exact List.mem_cons_self _ _)
    have hset : acc.set e.1 e.2 = acc ++ [e] := by
      unfold ResourceMap.set
      rw [List.filter_eq_self.2 (fun x hx => by simpa using hfresh x hx)]
    rw [List.foldl_cons, hset, ih (acc ++ [e]) (by simpa using hnd)]
    simp

theorem copyEntries_fold {ρ : Type} (dst : MapRef) (l : ResourceMap ρ) :
    ∀ h : Heap ρ,
      (l.foldl (fun h e => h.assign dst e.1 e.2) h).size = h.size ∧
      (l.foldl (fun h e => h.assign dst e.1 e.2) h).read dst
        = l.foldl (fun a e => a.set e.1 e.2) (h.read dst) ∧
      ∀ r, r ≠ dst → (l.foldl (fun h e => h.assign dst e.1 e.2) h).read r = h.read r := by
  induction l with
  | nil => intro h; simp
  | cons e t ih =>
    intro h
    obtain ⟨h1, h2, h3⟩ := ih (h.assign dst e.1 e.2)
    refine ⟨by rw [List.foldl_cons, h1]; rfl, ?_, ?_⟩
    · rw [List.foldl_cons, h2, List.foldl_cons]
      simp [Heap.assign]
    · intro r hr
      rw [List.foldl_cons, h3 r hr]
      simp [Heap.assign, hr]

theorem make_read_old {ρ : Type} (h : Heap ρ) (r : Nat) (hr : r ≠ h.size) :
    h.make.2.read r = h.read r := by
  simp [Heap.make, hr]

theorem make_read_new {ρ : Type} (h : Heap ρ) : h.make.2.read h.size = [] := by
  simp [Heap.make]

/-- Copying the entries of a map with distinct keys into an empty map object gives that object
the entries of the source and leaves every other object as it was. -/
theorem copyEntries_into_empty {ρ : Type} (h : Heap ρ) (src dst : Nat)
    (hempty : h.read dst = []) (hnodup : ((h.read src).map Prod.fst).Nodup) :
    (copyEntries h src dst).size = h.size ∧
    (copyEntries h src dst).read dst = h.read src ∧
    ∀ r : Nat, r ≠ dst → (copyEntries h src dst).read r = h.read r := by
  obtain ⟨h1, h2, h3⟩ := copyEntries_fold dst (h.read src) h
  refine ⟨h1, ?_, h3⟩
  unfold copyEntries
  rw [h2, hempty, foldl_set_eq_append _ _ (by simpa using hnodup)]
  simp

theorem New_eq {ρ : Type} (version : String) (providerResources providerDataSources : Nat)
    (h : Heap ρ) :
    New version providerResources providerDataSources h
      = ({ ResourcesMap := h.size,
           DataSourcesMap := (copyEntries h.make.2 providerResources h.size).size,
           ConfigureContextFunc := version },
         copyEntries (copyEntries h.make.2 providerResources h.size).make.2 providerDataSources
           (copyEntries h.make.2 providerResources h.size).size) := rfl

/-- C20: the provider that the function returned by `New` builds has map objects of its own,
allocated by the build and so different from every map object that was there, the two passed to
`New` included; its `ResourcesMap` and `DataSourcesMap` hold the entries of the maps passed to
`New`, so every key reads the same in the copy and in the original; and every map object that
was there, the two passed to `New` included, is left as it was. -/
theorem New_copies_maps {ρ : Type} (version : String) (providerResources
    providerDataSources : MapRef) (h : Heap ρ)
    (hresources : providerResources < h.size) (hdataSources : providerDataSources < h.size)
    (hkeys : ((h.read providerResources).map Prod.fst).Nodup)
    (hkeys' : ((h.read providerDataSources).map Prod.fst).Nodup) :
    (h.size ≤ (New version providerResources providerDataSources h).1.ResourcesMap ∧
      h.size ≤ (New version providerResources providerDataSources h).1.DataSourcesMap ∧
      (New version providerResources providerDataSources h).1.ResourcesMap
        ≠ (New version providerResources providerDataSources h).1.DataSourcesMap) ∧
    ((New version providerResources providerDataSources h).2.read
        (New version providerResources providerDataSources h).1.ResourcesMap
        = h.read providerResources ∧
      (New version providerResources providerDataSources h).2.read
        (New version providerResources providerDataSources h).1.DataSourcesMap
        = h.read providerDataSources) ∧
    (∀ k, ((New version providerResources providerDataSources h).2.read
        (New version providerResources providerDataSources h).1.ResourcesMap).get k
        = (h.read providerResources).get k) ∧
    (∀ k, ((New version providerResources providerDataSources h).2.read
        (New version providerResources providerDataSources h).1.DataSourcesMap).get k
        = (h.read providerDataSources).get k) ∧
    (∀ r, r < h.size →
      (New version providerResources providerDataSources h).2.read r = h.read r) := by
  have hr1 : (providerResources : Nat) ≠ h.size := Nat.ne_of_lt hresources
  have hr2 : (providerDataSources : Nat) ≠ h.size := Nat.ne_of_lt hdataSources
  rw [New_eq]
  simp only
  -- the first copy
  obtain ⟨a1, a2, a3⟩ := copyEntries_into_empty h.make.2 providerResources h.size
    (make_read_new h) (by rw [make_read_old h _ hr1]; exact hkeys)
  rw [make_read_old h _ hr1] at a2
  have a1' : (copyEntries h.make.2 providerResources h.size).size = h.size + 1 := a1
  have a3' : ∀ r : Nat, r < h.size →
      (copyEntries h.make.2 providerResources h.size).read r = h.read r := by
    intro r hr
    have hne : r ≠ h.size := Nat.ne_of_lt hr
    rw [a3 r hne, make_read_old h r hne]
  generalize copyEntries h.make.2 providerResources h.size = h2 at a1' a2 a3'
  have hr3 : (providerDataSources : Nat) ≠ h2.size := by
    rw [a1']; exact Nat.ne_of_lt (Nat.lt_succ_of_lt hdataSources)
  have hs : h.size ≠ h2.size := by rw [a1']; exact Nat.ne_of_lt (Nat.lt_succ_self _)
  -- the second copy
  obtain ⟨-, b2, b3⟩ := copyEntries_into_empty h2.make.2 providerDataSources h2.size
    (make_read_new h2)
    (by rw [make_read_old h2 _ hr3, a3' _ hdataSources]; exact hkeys')
  rw [make_read_old h2 _ hr3, a3' _ hdataSources] at b2
  have hres : (copyEntries h2.make.2 providerDataSources h2.size).read h.size
      = h.read providerResources := by
    rw [b3 _ hs, make_read_old h2 _ hs, a2]
  refine ⟨⟨Nat.le_refl _, by rw [a1']; exact Nat.le_succ _, hs⟩, ⟨hres, b2⟩,
    fun k => by rw [hres], fun k => by rw [b2], ?_⟩
  intro r hr
  have hne : r ≠ h2.size := by
    rw [a1']; exact Nat.ne_of_lt (Nat.lt_succ_of_lt hr)
  rw [b3 _ hne, make_read_old h2 _ hne, a3' _ hr]

theorem New_copies_maps_witness :
    (sampleHeap.size ≤ (New "1.52.0" 0 1 sampleHeap).1.ResourcesMap ∧
      sampleHeap.size ≤ (New "1.52.0" 0 1 sampleHeap).1.DataSourcesMap ∧
      (New "1.52.0" 0 1 sampleHeap).1.ResourcesMap
        ≠ (New "1.52.0" 0 1 sampleHeap).1.DataSourcesMap) ∧
    ((New "1.52.0" 0 1 sampleHeap).2.read (New "1.52.0" 0 1 sampleHeap).1.ResourcesMap
        = sampleHeap.read 0 ∧
      (New "1.52.0" 0 1 sampleHeap).2.read (New "1.52.0" 0 1 sampleHeap).1.DataSourcesMap
        = sampleHeap.read 1) ∧
    (∀ k, ((New "1.52.0" 0 1 sampleHeap).2.read
        (New "1.52.0" 0 1 sampleHeap).1.ResourcesMap).get k = (sampleHeap.read 0).get k) ∧
    (∀ k, ((New "1.52.0" 0 1 sampleHeap).2.read
        (New "1.52.0" 0 1 sampleHeap).1.DataSourcesMap).get k = (sampleHeap.read 1).get k) ∧
    (∀ r, r < sampleHeap.size → (New "1.52.0" 0 1 sampleHeap).2.read r = sampleHeap.read r) :=
  New_copies_maps "1.52.0" 0 1 sampleHeap (by decide) (by decide) (by decide) (by decide)

/-- C23: `getRegistry` never returns the empty string; and for a nil platform it returns
`registry.terraform.io` for every version, the development version `0.1.0` included. -/
theorem getRegistry_never_empty (platform : Option Platform) (version : String) :
    getRegistry platform version ≠ "" ∧
    getRegistry none version = "registry.terraform.io" ∧
    getRegistry none "0.1.0" = "registry.terraform.io" := by
  refine ⟨?_, rfl, rfl⟩
  cases platform with
  | none => simp [getRegistry]
  | some p =>
    by_cases hv : version = "0.1.0"
    · simp [getRegistry, hv]
    · by_cases hr : p.GetProviderRegistry = ""
      · simp [getRegistry, hv, hr]
      · simp [getRegistry, hv, hr]

/-! ### The regions -/

theorem isKeyChar_spec (a : Char) (h : isKeyChar a = true) :
    a.toLower = a ∧ a.toUpper.toLower = a ∧ a.toNat < 128 ∧ a.toUpper.toNat < 128 := by
  simpa [isKeyChar, and_assoc] using h

/-- A text that is a key with some letters in upper case is an ASCII text whose lower-casing is
the key. -/
theorem caseMix_lower (key : List Char) :
    ∀ r : List Char, caseMix key r = true → key.all isKeyChar = true →
      r.map Char.toLower = key ∧ r.all (fun c => decide (c.toNat < 128)) = true := by
  induction key with
  | nil =>
    intro r h _
    cases r with
    | nil => simp
    | cons b r => simp [caseMix] at h
  | cons a key ih =>
    intro r h hkey
    cases r with
    | nil => simp [caseMix] at h
    | cons b r =>
      rw [caseMix, Bool.and_eq_true, Bool.or_eq_true] at h
      rw [List.all_cons, Bool.and_eq_true] at hkey
      obtain ⟨h1, h2, h3, h4⟩ := isKeyChar_spec a hkey.1
      obtain ⟨ih1, ih2⟩ := ih r h.2 hkey.2
      have hb : b.toLower = a ∧ b.toNat < 128 := by
        rcases h.1 with hb | hb
        · rw [beq_iff_eq] at hb; subst hb; exact ⟨h1, h3⟩
        · rw [beq_iff_eq] at hb; subst hb; exact ⟨h2, h4⟩
      refine ⟨by rw [List.map_cons, hb.1, ih1], ?_⟩
      rw [List.all_cons, Bool.and_eq_true]
      exact ⟨decide_eq_true hb.2, ih2⟩

theorem getRegionMap_keys_lower : ∀ e ∈ getRegionMap, e.1.data.all isKeyChar = true := by
  decide

set_option maxRecDepth 20000 in
theorem getRegionMap_lookup :
    ∀ e ∈ getRegionMap, getRegionMap.lookup e.1 = some e.2 ∧ e.2 ≠ "" := by
  decide

theorem getAllowedRegions_eq : getAllowedRegions = getRegionMap.map Prod.fst := by
  decide

/-- C22: for every text `r`, `getRegionDomain r` is the entry of the region map for the
lower-cased `r`, the empty string when there is none; for every key of the region map written
with any of its letters in upper case, `GetRegionBasePath` returns `https://api.` followed by
the domain of that key, which is not empty; and for every text whose lower-casing is not a key,
`getRegionDomain` returns the empty string and `GetRegionBasePath` returns `https://api.`.
`strings.ToLower` is any function that lower-cases the ASCII letters of an ASCII text. -/
theorem getRegionDomain_ignores_case (ToLower : String → String)
    (hlower : ∀ s, isASCII s = true → ToLower s = asciiToLower s) :
    (∀ r, getRegionDomain ToLower r = (getRegionMap.lookup (ToLower r)).getD "") ∧
    (∀ key domain r, (key, domain) ∈ getRegionMap → caseMix key.data r.data = true →
      getRegionDomain ToLower r = domain ∧
      GetRegionBasePath ToLower r = "https://api." ++ domain ∧ domain ≠ "") ∧
    (∀ r, ToLower r ∉ getAllowedRegions →
      getRegionDomain ToLower r = "" ∧ GetRegionBasePath ToLower r = "https://api.") := by
  refine ⟨fun r => rfl, ?_, ?_⟩
  · intro key domain r hmem hmix
    obtain ⟨hmap, hascii⟩ := caseMix_lower key.data r.data hmix
      (getRegionMap_keys_lower _ hmem)
    obtain ⟨hlook, hne⟩ := getRegionMap_lookup _ hmem
    have hkey : ToLower r = key := by
      rw [hlower r hascii]
      unfold asciiToLower
      rw [hmap]
    have hdom : getRegionDomain ToLower r = domain := by
      unfold getRegionDomain
      rw [hkey, hlook]
      rfl
    exact ⟨hdom, by unfold GetRegionBasePath; rw [hdom], hne⟩
  · intro r hr
    rw [getAllowedRegions_eq] at hr
    have hnone : getRegionMap.lookup (ToLower r) = none := by
      rw [List.lookup_eq_none_iff]
      intro e he
      rw [bne_iff_ne]
      intro heq
      apply hr
      rw [List.mem_map]
      exact ⟨e, he, heq.symm⟩
    have hdom : getRegionDomain ToLower r = "" := by
      unfold getRegionDomain
      rw [hnone]
      rfl
    exact ⟨hdom, by unfold GetRegionBasePath; rw [hdom]; rfl⟩

theorem getRegionDomain_ignores_case_witness :
    (getRegionDomain asciiToLower "US-East-1" = "mypurecloud.com" ∧
      GetRegionBasePath asciiToLower "US-East-1" = "https://api." ++ "mypurecloud.com" ∧
      "mypurecloud.com" ≠ "") ∧
    (getRegionDomain asciiToLower "Mars-1" = "" ∧
      GetRegionBasePath asciiToLower "Mars-1" = "https://api.") :=
  ⟨(getRegionDomain_ignores_case asciiToLower (fun _ _ => rfl)).2.1 "us-east-1"
      "mypurecloud.com" "US-East-1" (by decide) (by decide),
   (getRegionDomain_ignores_case asciiToLower (fun _ _ => rfl)).2.2 "Mars-1" (by decide)⟩

end Provider

namespace OutboundRuleset

open RoutingSkillGroup (RetryCause RetryError RetryableError NonRetryableError)

/-- C19: an attempt of `dataSourceOutboundRulesetRead` reports success exactly when the lookup
returns no error and is not flagged retryable, and then sets the ID to the ID found; it reports
a non-retryable error when the lookup returns an error and is not flagged retryable, and the
retryable error `No ruleset found with name ...` whenever the lookup is flagged retryable; on a
failing attempt the resource data, its ID included, is left as it was. -/
theorem dataSourceOutboundRulesetReadStep_classifies
    (getOutboundRulesetIdByName : String → String × Bool × Option String) (d : ResourceData)
    (rulesetId : String) (retryable : Bool) (err : Option String)
    (hlookup : getOutboundRulesetIdByName d.name = (rulesetId, retryable, err)) :
    ((dataSourceOutboundRulesetReadStep getOutboundRulesetIdByName d).1 = none ↔
      err = none ∧ retryable = false) ∧
    (err = none → retryable = false →
      dataSourceOutboundRulesetReadStep getOutboundRulesetIdByName d
        = (none, { d with Id := rulesetId })) ∧
    (∀ e, err = some e → retryable = false →
      dataSourceOutboundRulesetReadStep getOutboundRulesetIdByName d
        = (some { Err := .errorString ("Error ruleset " ++ d.name ++ ": " ++ e),
                  Retryable := false }, d)) ∧
    (retryable = true →
      dataSourceOutboundRulesetReadStep getOutboundRulesetIdByName d
        = (some { Err := .errorString ("No ruleset found with name " ++ d.name),
                  Retryable := true }, d)) ∧
    ((dataSourceOutboundRulesetReadStep getOutboundRulesetIdByName d).1 ≠ none →
      (dataSourceOutboundRulesetReadStep getOutboundRulesetIdByName d).2 = d) := by
  unfold dataSourceOutboundRulesetReadStep
  simp only [hlookup]
  cases err <;> cases retryable <;> simp [RetryableError, NonRetryableError]

theorem dataSourceOutboundRulesetReadStep_classifies_witness :
    dataSourceOutboundRulesetReadStep sampleLookup { Id := "", name := "Collections" }
      = (none, { Id := "rs-7", name := "Collections" }) ∧
    dataSourceOutboundRulesetReadStep sampleLookup { Id := "", name := "Fresh" }
      = (some { Err := .errorString ("No ruleset found with name " ++ "Fresh"),
                Retryable := true }, { Id := "", name := "Fresh" }) ∧
    dataSourceOutboundRulesetReadStep sampleLookup { Id := "", name := "Other" }
      = (some { Err := .errorString ("Error ruleset " ++ "Other" ++ ": " ++ "request failed"),
                Retryable := false }, { Id := "", name := "Other" }) :=
  ⟨(dataSourceOutboundRulesetReadStep_classifies sampleLookup { Id := "", name := "Collections" }
      "rs-7" false none (by decide)).2.1 rfl rfl,
   (dataSourceOutboundRulesetReadStep_classifies sampleLookup { Id := "", name := "Fresh" }
      "" true (some "no ruleset found") (by decide)).2.2.2.1 rfl,
   (dataSourceOutboundRulesetReadStep_classifies sampleLookup { Id := "", name := "Other" }
      "" false (some "request failed") (by decide)).2.2.1 _ rfl rfl⟩

end OutboundRuleset
